import Mathlib

/-!
# Verification of the VisionMate Real-Time Guidance & Memory Core

Shallow embedding of the core components of the VisionMate assistive-vision
system, together with proofs of the behavioural claims stated in its
specification.  Components modelled (each definition is translated from the
named Python source):

* `ItemTracker`   — `item_tracker.py` (IoU, containment test, pair tracking)
* `AudioFeedback` — `audio_feedback.py` (priority queue scheduling)
* `SpatialNavigator` — `spatial_navigator.py` (zones, guidance generation)
* `ObstacleFusion` — `obstacle_fusion.py` (sensor fusion, warnings)
* `NavigationEngine` — `navigation_engine.py` (haversine, update state machine)
* `VisualMatcher` / `ObjectMemory` — `visual_matcher.py`, `object_memory.py`

Python floats are modelled by `ℚ` where the program only performs exact
field arithmetic on integer-valued data, and by `ℝ` where it uses
transcendental functions (the navigation engine's haversine formula).
External-library primitives (OpenCV feature detection and descriptor
matching, numpy's L2 norm) are modelled as oracle fields of the structures
that hold them in the source; all repository-level logic is translated.
-/

/-- A bounding box `(x1, y1, x2, y2)` in integer pixel coordinates, as the
detector produces it (`item_tracker.py` receives it as a Python int list,
`spatial_navigator.py` as a tuple). -/
structure Box where
  x1 : ℤ
  y1 : ℤ
  x2 : ℤ
  y2 : ℤ
deriving DecidableEq

/-- A per-frame object detection: the `class_name` / `bbox` fields of the
detection dicts consumed by the tracker and the spatial navigator
(`confidence` is never read by the modelled code paths). -/
structure Detection where
  class_name : String
  bbox : Box
deriving DecidableEq

namespace ItemTracker

/-- `ItemTracker.calculate_iou` (src/item_tracker.py lines 32-64):
intersection-over-union of two axis-aligned boxes; returns `0.0` when the
boxes do not overlap (`x2_i < x1_i or y2_i < y1_i`) and when the union
area is `0`. -/
def calculate_iou (box1 box2 : Box) : ℚ :=
  let x1_i := max box1.x1 box2.x1
  let y1_i := max box1.y1 box2.y1
  let x2_i := min box1.x2 box2.x2
  let y2_i := min box1.y2 box2.y2
  if x2_i < x1_i ∨ y2_i < y1_i then 0
  else
    let intersection := (x2_i - x1_i) * (y2_i - y1_i)
    let area1 := (box1.x2 - box1.x1) * (box1.y2 - box1.y1)
    let area2 := (box2.x2 - box2.x1) * (box2.y2 - box2.y1)
    let union := area1 + area2 - intersection
    if union = 0 then 0
    else (intersection : ℚ) / (union : ℚ)

/-- `config.IOU_THRESHOLD = 0.3`. -/
def IOU_THRESHOLD : ℚ := 3/10

/-- `config.ITEM_TRACKING_TIMEOUT = 3.0` seconds. -/
def ITEM_TRACKING_TIMEOUT : ℚ := 3

/-- `ItemTracker.is_inside` (lines 66-88): containment test, true when the
IoU exceeds the threshold or the item's centre lies within the container
box. -/
def is_inside (item_box container_box : Box) : Prop :=
  let iou := calculate_iou item_box container_box
  let item_cx : ℚ := (item_box.x1 + item_box.x2) / 2
  let item_cy : ℚ := (item_box.y1 + item_box.y2) / 2
  iou > IOU_THRESHOLD ∨
    ((container_box.x1 : ℚ) ≤ item_cx ∧ item_cx ≤ (container_box.x2 : ℚ) ∧
     (container_box.y1 : ℚ) ≤ item_cy ∧ item_cy ≤ (container_box.y2 : ℚ))

instance (a b : Box) : Decidable (is_inside a b) := by
  unfold is_inside; infer_instance

/-- The per-pair tracking record `{'start_time': float, 'confirmed': bool}`. -/
structure TrackEntry where
  start_time : ℚ
  confirmed : Bool
deriving DecidableEq

/-- The `tracking_state` dict, keyed by `(item_class, container_class)`;
modelled as an insertion-ordered association list like a Python dict. -/
abbrev TrackingState := List ((String × String) × TrackEntry)

/-- Dict lookup: first binding of the key. -/
def lookupPair (st : TrackingState) (k : String × String) : Option TrackEntry :=
  (st.find? (fun e => e.1 == k)).map (·.2)

/-- Dict update in place: set `confirmed := true` on the key's binding. -/
def setConfirmed (st : TrackingState) (k : String × String) : TrackingState :=
  st.map (fun e => if e.1 == k then (e.1, { e.2 with confirmed := true }) else e)

/-- A confirmed-location event returned by `update_tracking`. -/
structure Confirmed where
  item : String
  location : String
  timestamp : ℚ
deriving DecidableEq

/-- `['chair', 'sofa', 'tv']` (line 104). -/
def container_classes : List String := ["chair", "sofa", "tv"]

/-- `['keys', 'bottle']` (line 105). -/
def item_classes : List String := ["keys", "bottle"]

/-- Accumulator for the nested `for item / for container` loops. -/
structure LoopAcc where
  confirmed_locations : List Confirmed
  db_writes : List (String × String)
  active_pairs : List (String × String)
  state : TrackingState


/-- Body of the nested loops of `update_tracking` (lines 114-145), for a
single `(item, container)` pair. -/
def processPair (current_time : ℚ) (acc : LoopAcc) (ic : Detection × Detection) :
    LoopAcc :=
  if is_inside ic.1.bbox ic.2.bbox then
    let pair_key := (ic.1.class_name, ic.2.class_name)
    let acc := { acc with active_pairs := acc.active_pairs ++ [pair_key] }
    match lookupPair acc.state pair_key with
    | some entry =>
        if current_time - entry.start_time ≥ ITEM_TRACKING_TIMEOUT ∧
            entry.confirmed = false then
          { acc with
            state := setConfirmed acc.state pair_key
            confirmed_locations := acc.confirmed_locations ++
              [⟨ic.1.class_name, ic.2.class_name, current_time⟩]
            db_writes := acc.db_writes ++ [pair_key] }
        else acc
    | none =>
        { acc with state := acc.state ++ [(pair_key, ⟨current_time, false⟩)] }
  else acc

/-- `ItemTracker.update_tracking` (lines 90-152).  Returns the confirmed
locations emitted this call, the list of datastore upserts performed
(`db.update_item_location` calls, in order), and the new tracking state.
The final filter models the deletion of `inactive_pairs` (lines 147-150). -/
def update_tracking (current_time : ℚ) (detections : List Detection)
    (st : TrackingState) :
    List Confirmed × List (String × String) × TrackingState :=
  let items := detections.filter (fun d => d.class_name ∈ item_classes)
  let containers := detections.filter (fun d => d.class_name ∈ container_classes)
  let pairs := items.flatMap (fun i => containers.map (fun c => (i, c)))
  let acc := pairs.foldl (processPair current_time)
    ⟨[], [], [], st⟩
  let state' := acc.state.filter (fun e => e.1 ∈ acc.active_pairs)
  (acc.confirmed_locations, acc.db_writes, state')

/-- A valid axis-aligned box: `x1 ≤ x2` and `y1 ≤ y2`. -/
def validBox (b : Box) : Prop := b.x1 ≤ b.x2 ∧ b.y1 ≤ b.y2

instance (b : Box) : Decidable (validBox b) := by
  unfold validBox; infer_instance

/-- Signed box area `(x2 - x1) * (y2 - y1)`. -/
def boxArea (b : Box) : ℤ := (b.x2 - b.x1) * (b.y2 - b.y1)

/-- Two boxes whose (closed) intersection rectangle is degenerate: they are
disjoint or touch along at most a line. -/
def nonoverlapping (a b : Box) : Prop :=
  min a.x2 b.x2 ≤ max a.x1 b.x1 ∨ min a.y2 b.y2 ≤ max a.y1 b.y1

instance (a b : Box) : Decidable (nonoverlapping a b) := by
  unfold nonoverlapping; infer_instance

/-- The `(item, location)` keys of a list of confirmed events. -/
def keysOf (l : List Confirmed) : List (String × String) :=
  l.map (fun c => (c.item, c.location))

/-- Whether the pair `k` passes the containment test for some item/container
detection pair of the current frame (i.e. `k ∈ active_pairs`). -/
def pairActive (detections : List Detection) (k : String × String) : Prop :=
  ∃ i ∈ detections.filter (fun d => d.class_name ∈ item_classes),
    ∃ c ∈ detections.filter (fun d => d.class_name ∈ container_classes),
      i.class_name = k.1 ∧ c.class_name = k.2 ∧ is_inside i.bbox c.bbox

instance (d : List Detection) (k : String × String) : Decidable (pairActive d k) := by
  unfold pairActive; infer_instance

/-- `pairActive` phrased over the flattened item×container pair list that
the nested loops of `update_tracking` iterate. -/
def insideKey (ps : List (Detection × Detection)) (k : String × String) : Prop :=
  ∃ ic ∈ ps, is_inside ic.1.bbox ic.2.bbox ∧
    (ic.1.class_name, ic.2.class_name) = k

/-- Run `update_tracking` over a timed trace of frames, collecting every
confirmed-location event. -/
def runTracker (frames : List (ℚ × List Detection)) (st : TrackingState) :
    List Confirmed × TrackingState :=
  frames.foldl
    (fun (acc : List Confirmed × TrackingState) f =>
      let r := update_tracking f.1 f.2 acc.2
      (acc.1 ++ r.1, r.2.2))
    ([], st)

end ItemTracker

namespace AudioFeedback

/-- `config.py` priority constants: `EMERGENCY(1) > SOCIAL(2) >
NAVIGATIONAL(3) > STATUS(4)`. -/
def PRIORITY_EMERGENCY : ℕ := 1

def PRIORITY_SOCIAL : ℕ := 2

def PRIORITY_NAVIGATIONAL : ℕ := 3

def PRIORITY_STATUS : ℕ := 4

/-- A queued message: the `(priority, text)` tuple that `speak` puts on the
`queue.PriorityQueue` (src/audio_feedback.py line 70). -/
abbrev Msg := ℕ × String

/-- Python string `<`: lexicographic comparison of the code-point
sequences. -/
def charsLt : List Char → List Char → Bool
  | [], [] => false
  | [], _ :: _ => true
  | _ :: _, [] => false
  | c :: cs, d :: ds =>
      decide (c.toNat < d.toNat) || (decide (c.toNat = d.toNat) && charsLt cs ds)

/-- Python string `<=` (`a <= b` iff not `b < a`). -/
def strLe (a b : String) : Prop := charsLt b.data a.data = false

/-- Python tuple comparison on `(priority, text)`: the strict heap order
used by `queue.PriorityQueue`. -/
def msgLt (a b : Msg) : Bool :=
  decide (a.1 < b.1) || (decide (a.1 = b.1) && charsLt a.2.data b.2.data)

/-- The non-strict companion of `msgLt`. -/
def msgLe (a b : Msg) : Prop :=
  a.1 < b.1 ∨ (a.1 = b.1 ∧ strLe a.2 b.2)

instance (a b : Msg) : Decidable (msgLe a b) := by
  unfold msgLe strLe; infer_instance

/-- Scheduler state: the pending queue contents plus the `is_playing`
flag.  The in-flight utterance itself is outside the queue. -/
structure AudioState where
  queue : List Msg
  is_playing : Bool
deriving DecidableEq

/-- `AudioFeedback.speak` (lines 51-70): Emergency always interrupts; an
interrupting call while playing clears the queue (`_clear_queue`) and stops
the current utterance; the message is then put on the priority queue. -/
def speak (st : AudioState) (text : String) (priority : ℕ) (interrupt : Bool) :
    AudioState :=
  let interrupt := if priority = PRIORITY_EMERGENCY then true else interrupt
  let st := if interrupt ∧ st.is_playing then { st with queue := [] } else st
  { st with queue := st.queue ++ [(priority, text)] }

/-- One `audio_queue.get()` of `_playback_worker` (line 92): the pending
message with the smallest `(priority, text)` key is removed.  For distinct
keys the heap minimum is unique; for fully equal keys we take the leftmost
occurrence (the entries are indistinguishable). -/
def popMin : List Msg → Option (Msg × List Msg)
  | [] => none
  | x :: xs =>
      let m := xs.foldl (fun a b => if msgLt b a then b else a) x
      some (m, (x :: xs).erase m)

/-- `drainAux n q`: up to `n` successive `audio_queue.get()` calls. -/
def drainAux : ℕ → List Msg → List Msg
  | 0, _ => []
  | n + 1, q =>
      match popMin q with
      | none => []
      | some (m, rest) => m :: drainAux n rest

/-- The order in which `_playback_worker` plays the queued-but-not-yet-
playing messages when no further message is enqueued: successive heap
minima until the queue is empty. -/
def drain (q : List Msg) : List Msg :=
  drainAux q.length q

end AudioFeedback

namespace SpatialNavigator

/-- Python `str.lower()` (ASCII class names). -/
def lowerStr (s : String) : String :=
  String.mk (s.data.map Char.toLower)

/-- Python `str.capitalize()`: first character upper-cased, the rest
lower-cased. -/
def capitalize (s : String) : String :=
  match s.data with
  | [] => ""
  | c :: cs => String.mk (c.toUpper :: cs.map Char.toLower)

/-- `SpatialNavigator.ZONE_PRIORITY` (src/spatial_navigator.py lines 24-28). -/
def ZONE_PRIORITY : List (String × ℕ) :=
  [("bottom-left", 1), ("bottom", 1), ("bottom-right", 1),
   ("left", 2), ("center", 2), ("right", 2),
   ("top-left", 3), ("top", 3), ("top-right", 3)]

/-- `SpatialNavigator.OBSTACLE_CLASSES` (lines 31-32). -/
def OBSTACLE_CLASSES : List String :=
  ["person", "chair", "couch", "bicycle", "car", "motorcycle",
   "bus", "truck", "bench", "potted plant", "dog", "cat"]

/-- Dict `.get` with default on a string-keyed association list. -/
def assocGetD (l : List (String × ℕ)) (k : String) (d : ℕ) : ℕ :=
  ((l.find? (fun e => e.1 == k)).map (·.2)).getD d

/-- Dict `.get` with default, string values. -/
def assocGetS (l : List (String × String)) (k : String) (d : String) : String :=
  ((l.find? (fun e => e.1 == k)).map (·.2)).getD d

/-- The navigator's constructor state (lines 34-54): frame size and the
bbox-area-ratio threshold.  `zone_width`/`zone_height` are derived. -/
structure Nav where
  frame_width : ℚ
  frame_height : ℚ
  distance_threshold : ℚ
deriving DecidableEq

/-- `self.zone_width = frame_width / 3`. -/
def Nav.zone_width (nav : Nav) : ℚ := nav.frame_width / 3

/-- `self.zone_height = frame_height / 3`. -/
def Nav.zone_height (nav : Nav) : ℚ := nav.frame_height / 3

/-- The default `SpatialNavigator(640, 480, 0.3)`. -/
def defaultNav : Nav := ⟨640, 480, 3/10⟩

/-- `SpatialNavigator.get_object_zone` (lines 56-95): classify a bbox into
one of the 9 named zones by its centre point. -/
def get_object_zone (nav : Nav) (bbox : Box) : String :=
  let center_x : ℚ := (bbox.x1 + bbox.x2) / 2
  let center_y : ℚ := (bbox.y1 + bbox.y2) / 2
  let col : ℕ :=
    if center_x < nav.zone_width then 0
    else if center_x < 2 * nav.zone_width then 1
    else 2
  let row : ℕ :=
    if center_y < nav.zone_height then 0
    else if center_y < 2 * nav.zone_height then 1
    else 2
  match row, col with
  | 0, 0 => "top-left"
  | 0, 1 => "top"
  | 0, 2 => "top-right"
  | 1, 0 => "left"
  | 1, 1 => "center"
  | 1, 2 => "right"
  | 2, 0 => "bottom-left"
  | 2, 1 => "bottom"
  | _, _ => "bottom-right"

/-- `SpatialNavigator.estimate_distance` (lines 97-120): qualitative
distance from the bbox-area / frame-area ratio. -/
def estimate_distance (nav : Nav) (bbox : Box) : String :=
  let bbox_area : ℚ := ((bbox.x2 - bbox.x1) * (bbox.y2 - bbox.y1) : ℤ)
  let frame_area : ℚ := nav.frame_width * nav.frame_height
  let area_ratio := bbox_area / frame_area
  if area_ratio > 35/100 then "very-close"
  else if area_ratio > 15/100 then "close"
  else if area_ratio > 5/100 then "medium"
  else "far"

/-- `SpatialNavigator.is_obstacle` (lines 122-124). -/
def is_obstacle (class_name : String) : Bool :=
  (OBSTACLE_CLASSES.map lowerStr).contains (lowerStr class_name)

/-- `SpatialNavigator.get_clear_direction` (lines 126-169): aggregate
direction from the occupied zones; `none` means all paths blocked. -/
def get_clear_direction (occupied_zones : List String) : Option String :=
  let bottom_zones := ["bottom-left", "bottom", "bottom-right"]
  let occupied_bottom := occupied_zones.filter (fun z => bottom_zones.contains z)
  if occupied_bottom.isEmpty then some "straight"
  else
    let left_blocked := occupied_bottom.contains "bottom-left" ||
      occupied_zones.contains "left"
    let right_blocked := occupied_bottom.contains "bottom-right" ||
      occupied_zones.contains "right"
    let center_blocked := occupied_bottom.contains "bottom"
    if center_blocked && !left_blocked && !right_blocked then
      if !(occupied_zones.contains "left") then some "left"
      else if !(occupied_zones.contains "right") then some "right"
      else some "straight"
    else if !left_blocked && !center_blocked then some "left"
    else if !right_blocked && !center_blocked then some "right"
    else if !left_blocked then some "left"
    else if !right_blocked then some "right"
    else none

/-- `SpatialNavigator._create_guidance_message` (lines 247-292). -/
def _create_guidance_message (class_name zone distance : String) : String :=
  let zone_speech : List (String × String) :=
    [("top-left", "above left"), ("top", "above"), ("top-right", "above right"),
     ("left", "left"), ("center", "ahead"), ("right", "right"),
     ("bottom-left", "bottom left"), ("bottom", "bottom"),
     ("bottom-right", "bottom right")]
  let distance_speech : List (String × String) :=
    [("very-close", ""), ("close", "close"), ("medium", ""), ("far", "")]
  let zone_desc := assocGetS zone_speech zone zone
  let dist_desc := assocGetS distance_speech distance ""
  if distance == "very-close" then
    capitalize class_name ++ " " ++ zone_desc
  else if dist_desc ≠ "" then
    capitalize class_name ++ " " ++ dist_desc ++ " " ++ zone_desc
  else
    capitalize class_name ++ " " ++ zone_desc

/-- One guidance entry (the dict of lines 210-217 / 224-240). -/
structure Guidance where
  message : String
  priority : ℕ
  zone : String
  distance : String
  class_name : String
  bbox : Option Box
deriving DecidableEq

/-- The per-detection loop of `generate_guidance` (lines 186-217). -/
def guidanceStep (nav : Nav) (acc : List Guidance × List String) (det : Detection) :
    List Guidance × List String :=
  if !is_obstacle det.class_name then acc
  else
    let zone := get_object_zone nav det.bbox
    let distance := estimate_distance nav det.bbox
    let priority := assocGetD ZONE_PRIORITY zone 3
    let occupied := acc.2 ++ [zone]
    let message := _create_guidance_message det.class_name zone distance
    let priority :=
      if distance == "very-close" then 1
      else if distance == "close" && priority == 2 then 1
      else priority
    (acc.1 ++ [⟨message, priority, zone, distance, det.class_name, some det.bbox⟩],
     occupied)

/-- `SpatialNavigator.generate_guidance` (lines 171-245): per-obstacle
entries, an aggregate directional entry when any zone is occupied, then a
stable sort ascending by priority (Python's `list.sort` is stable;
insertion sort computes the same list). -/
def generate_guidance (nav : Nav) (detections : List Detection) : List Guidance :=
  let acc := detections.foldl (guidanceStep nav) ([], [])
  let guidance_list := acc.1
  let occupied_zones := acc.2
  let guidance_list :=
    if occupied_zones.isEmpty then guidance_list
    else
      match get_clear_direction occupied_zones with
      | some dir =>
          guidance_list ++
            [⟨"Move " ++ dir, 1, "navigation", "immediate", "navigation", none⟩]
      | none =>
          guidance_list ++
            [⟨"Path blocked, stop", 1, "navigation", "immediate", "emergency", none⟩]
  guidance_list.insertionSort (fun a b => a.priority ≤ b.priority)

instance : IsTotal Guidance (fun a b => a.priority ≤ b.priority) :=
  ⟨fun a b => Nat.le_total a.priority b.priority⟩

instance : IsTrans Guidance (fun a b => a.priority ≤ b.priority) :=
  ⟨fun _ _ _ h1 h2 => le_trans h1 h2⟩

end SpatialNavigator

namespace ObstacleFusion

/-- `ObstacleFusion.__init__` (src/obstacle_fusion.py lines 20-29): frame
size plus the fixed sensor/camera fields of view (15 and 60 degrees).  The
ultrasonic sensor itself is an external collaborator; each call chain
receives its current reading (`get_distance()`, cm) as an explicit
`Option ℚ` argument. -/
structure Fusion where
  frame_width : ℚ
  frame_height : ℚ
  sensor_fov : ℚ
  camera_fov : ℚ
deriving DecidableEq

/-- `ObstacleFusion(sensor, 640, 480)`. -/
def defaultFusion : Fusion := ⟨640, 480, 15, 60⟩

/-- `ObstacleFusion._is_in_sensor_view` (lines 65-89). -/
def _is_in_sensor_view (f : Fusion) (bbox : Box) : Prop :=
  let obj_center_x : ℚ := (bbox.x1 + bbox.x2) / 2
  let frame_center_x := f.frame_width / 2
  let pixel_offset_x := |obj_center_x - frame_center_x|
  let angle_offset := pixel_offset_x / f.frame_width * f.camera_fov
  angle_offset < f.sensor_fov / 2

instance (f : Fusion) (bbox : Box) : Decidable (_is_in_sensor_view f bbox) := by
  unfold _is_in_sensor_view; infer_instance

/-- `ObstacleFusion._estimate_from_bbox` (lines 91-110). -/
def _estimate_from_bbox (f : Fusion) (bbox : Box) : ℚ :=
  let bbox_area : ℚ := ((bbox.x2 - bbox.x1) * (bbox.y2 - bbox.y1) : ℤ)
  let frame_area := f.frame_width * f.frame_height
  let area_ratio := bbox_area / frame_area
  if area_ratio > 35/100 then 1/2
  else if area_ratio > 15/100 then 1
  else if area_ratio > 5/100 then 2
  else 4

/-- A detection enhanced with a `precise_distance` and its source
(lines 43-61). -/
structure EnhancedObj where
  class_name : String
  bbox : Box
  precise_distance : ℚ
  distance_source : String
deriving DecidableEq

/-- `ObstacleFusion.get_object_with_distance` (lines 31-63);
`ultrasonic_distance` is the sensor reading in cm. -/
def get_object_with_distance (f : Fusion) (ultrasonic_distance : Option ℚ)
    (objects : List Detection) : List EnhancedObj :=
  objects.map (fun obj =>
    if _is_in_sensor_view f obj.bbox then
      match ultrasonic_distance with
      | some d => ⟨obj.class_name, obj.bbox, d / 100, "ultrasonic"⟩
      | none => ⟨obj.class_name, obj.bbox, _estimate_from_bbox f obj.bbox,
          "camera_estimate"⟩
    else
      ⟨obj.class_name, obj.bbox, _estimate_from_bbox f obj.bbox, "camera_estimate"⟩)

/-- The obstacle allow-list of `get_critical_obstacles` (line 126). -/
def fusion_obstacle_classes : List String :=
  ["person", "chair", "couch", "car", "bicycle", "motorcycle", "bus", "truck"]

/-- `ObstacleFusion.get_critical_obstacles` (lines 112-137), default
`distance_threshold = 1.5` m; result sorted by distance, closest first
(stable, as Python's `list.sort`). -/
def get_critical_obstacles (f : Fusion) (ultrasonic_distance : Option ℚ)
    (objects : List Detection) (distance_threshold : ℚ := 3/2) :
    List EnhancedObj :=
  let enhanced := get_object_with_distance f ultrasonic_distance objects
  let critical := enhanced.filter (fun obj =>
    fusion_obstacle_classes.contains obj.class_name &&
      decide (obj.precise_distance < distance_threshold))
  critical.insertionSort (fun a b => a.precise_distance ≤ b.precise_distance)

/-- A warning dict (lines 183-190). -/
structure Warning where
  message : String
  priority : ℕ
  distance : ℚ
  object_class : String
  position : String
  accuracy : String
deriving DecidableEq

/-- Models Python's `f"{d:.1f}"` on the exact rational value: one decimal
digit, rounding half away from zero (the printed text is never inspected by
any claim). -/
def fmt1 (q : ℚ) : String :=
  let n : ℤ := ⌊q * 10 + 1/2⌋
  toString (n / 10) ++ "." ++ toString (n % 10)

/-- `ObstacleFusion.generate_obstacle_warnings` (lines 139-192): warnings
for the top 3 closest critical obstacles. -/
def generate_obstacle_warnings (f : Fusion) (ultrasonic_distance : Option ℚ)
    (objects : List Detection) : List Warning :=
  let critical := get_critical_obstacles f ultrasonic_distance objects
  (critical.take 3).map (fun obj =>
    let distance := obj.precise_distance
    let center_x : ℚ := (obj.bbox.x1 + obj.bbox.x2) / 2
    let position :=
      if center_x < f.frame_width / 3 then "left"
      else if center_x > 2 * f.frame_width / 3 then "right"
      else "ahead"
    let pm : ℕ × String :=
      if distance < 1/2 then
        (1, "STOP! " ++ SpatialNavigator.capitalize obj.class_name ++ " " ++
          fmt1 distance ++ "m " ++ position)
      else if distance < 1 then
        (2, "Caution: " ++ SpatialNavigator.capitalize obj.class_name ++ " " ++
          fmt1 distance ++ "m " ++ position)
      else
        (3, SpatialNavigator.capitalize obj.class_name ++ " " ++
          fmt1 distance ++ "m " ++ position)
    let accuracy := if obj.distance_source == "ultrasonic" then "measured"
      else "estimated"
    ⟨pm.2, pm.1, distance, obj.class_name, position, accuracy⟩)

end ObstacleFusion

namespace VisualMatcher

/-- An uninterpreted camera-frame handle: the embedded code never inspects
pixel data itself, it only passes frames to the (oracle) feature
extractor. -/
abbrev Image := ℕ

/-- The two shapes of the feature dict produced by
`VisualMatcher.extract_features` (src/visual_matcher.py lines 76-145):
a deep-learning embedding, or a keypoint-style record with optional
descriptors and a colour histogram (keypoint sizes/angles are carried in
parallel lists in the source and never read by any modelled code path). -/
inductive Features
  | deep (embedding : List ℚ)
  | keypoint (keypoints : List (ℚ × ℚ)) (descriptors : Option (List (List ℤ)))
      (color_hist : List ℚ)
deriving DecidableEq

/-- `features.get('feature_type') == 'deep'`. -/
def Features.isDeep : Features → Bool
  | .deep _ => true
  | .keypoint _ _ _ => false

/-- `features.get('deep_embedding')`, with a missing key modelled as `[]`
(both are falsy in the truthiness tests of the source). -/
def Features.deepEmbedding : Features → List ℚ
  | .deep e => e
  | .keypoint _ _ _ => []

/-- `features.get('descriptors')` (`none` on a deep dict, which has no such
key). -/
def Features.descriptorsGet : Features → Option (List (List ℤ))
  | .deep _ => none
  | .keypoint _ d _ => d

/-- `features.get('keypoints')`, missing key as `[]`. -/
def Features.keypointsGet : Features → List (ℚ × ℚ)
  | .deep _ => []
  | .keypoint k _ _ => k

/-- `features.get('color_hist')`, missing key as `[]` (falsy either way). -/
def Features.colorHist : Features → List ℚ
  | .deep _ => []
  | .keypoint _ _ h => h

/-- Truthiness of `features.get('descriptors')`: a present, non-empty
descriptor list. -/
def Features.descTruthy (f : Features) : Bool :=
  match f.descriptorsGet with
  | some d => !d.isEmpty
  | none => false

/-- `np.dot` of two flattened equal-length vectors. -/
def dotList (a b : List ℚ) : ℚ :=
  (List.zipWith (· * ·) a b).sum

/-- `np.clip(x, 0, 1)`. -/
def clip01 (x : ℚ) : ℚ := min (max x 0) 1

/-- Histogram normalisation of `match_features` (lines 299-300):
`h / (np.sum(h) + 1e-6)`. -/
def normalizeHist (h : List ℚ) : List ℚ :=
  h.map (· / (h.sum + 1/1000000))

/-- Element-wise `np.mean(vs, axis=0)` over equal-length vectors. -/
def avgVecs (vs : List (List ℚ)) : List ℚ :=
  match vs with
  | [] => []
  | v :: rest => (rest.foldl (fun a b => a.zipWith (· + ·) b) v).map
      (· / (vs.length : ℚ))

/-- `VisualMatcher.__init__` state (lines 25-74) together with the
OpenCV/numpy primitives the class holds, modelled as oracles:
`goodMatchCount` is `BFMatcher.knnMatch` followed by Lowe's ratio test
(lines 273-284), `compareHistOracle` is `cv2.compareHist(..., HISTCMP_CORREL)`,
`l2norm` is `np.linalg.norm`, and `extractFeatures` is
`extract_features(image, bbox)` (ORB `detectAndCompute` or the MobileNetV2
embedding, lines 76-145). -/
structure Matcher where
  match_threshold : ℚ
  use_deep_features : Bool
  extractFeatures : Image → Box → Features
  goodMatchCount : List (List ℤ) → List (List ℤ) → ℕ
  compareHistOracle : List ℚ → List ℚ → ℚ
  l2norm : List ℚ → ℚ

/-- `VisualMatcher.match_features` (lines 231-317): deep × deep gives a
clamped dot product; otherwise descriptor matching with Lowe-ratio count,
optionally blended `0.7 × match_ratio + 0.3 × max(0, hist_similarity)`. -/
def match_features (m : Matcher) (query_features reference_features : Features) :
    ℚ × ℕ :=
  match query_features, reference_features with
  | .deep qe, .deep re => (clip01 (dotList qe re), 1)
  | q, r =>
      match q.descriptorsGet, r.descriptorsGet with
      | none, _ => (0, 0)
      | some _, none => (0, 0)
      | some query_desc, some ref_desc =>
          if query_desc.length < 2 ∨ ref_desc.length < 2 then (0, 0)
          else
            let good_matches := m.goodMatchCount query_desc ref_desc
            let match_ratio : ℚ := (good_matches : ℚ) / (query_desc.length : ℚ)
            if q.colorHist ≠ [] ∧ r.colorHist ≠ [] then
              let query_hist := normalizeHist q.colorHist
              let ref_hist := normalizeHist (r.colorHist.take q.colorHist.length)
              let hist_similarity := m.compareHistOracle query_hist ref_hist
              (7/10 * match_ratio + 3/10 * max 0 hist_similarity, good_matches)
            else (match_ratio, good_matches)

/-- `VisualMatcher.find_best_match` (lines 319-352): fold over the
candidates keeping `best_confidence` (initially `0.0`) and the best id/name;
a candidate wins only if `confidence > best_confidence and
confidence >= self.match_threshold`. -/
def find_best_match (m : Matcher) (query_features : Features)
    (candidates : List (ℕ × String × Features)) : Option (ℕ × String × ℚ) :=
  if candidates.isEmpty then none
  else
    let r := candidates.foldl
      (fun (acc : ℚ × Option (ℕ × String)) cand =>
        let confidence := (match_features m query_features cand.2.2).1
        if confidence > acc.1 ∧ confidence ≥ m.match_threshold then
          (confidence, some (cand.1, cand.2.1))
        else acc)
      (0, none)
    match r with
    | (best_confidence, some (best_id, best_name)) =>
        some (best_id, best_name, best_confidence)
    | (_, none) => none

/-- The confidences `find_best_match` compares: each candidate scored by
`match_features` against the query. -/
def scoredCandidates (m : Matcher) (query_features : Features)
    (candidates : List (ℕ × String × Features)) : List (ℕ × String × ℚ) :=
  candidates.map (fun c => (c.1, c.2.1, (match_features m query_features c.2.2).1))

/-- Specification-side selection rule (the amended claim's words): the
earliest candidate whose confidence is at or above the threshold and is a
maximum of all candidate confidences. -/
def find_best_match_spec (m : Matcher) (query_features : Features)
    (candidates : List (ℕ × String × Features)) : Option (ℕ × String × ℚ) :=
  (scoredCandidates m query_features candidates).find? (fun c =>
    decide (m.match_threshold ≤ c.2.2) &&
    (scoredCandidates m query_features candidates).all
      (fun d => decide (d.2.2 ≤ c.2.2)))

/-- One iteration of the `find_best_match` loop, applied to an
already-scored candidate `(id, name, confidence)`: the running best is
replaced only when `confidence > best_confidence and
confidence >= match_threshold`. -/
def bestStep (match_threshold : ℚ) (acc : ℚ × Option (ℕ × String))
    (cand : ℕ × String × ℚ) : ℚ × Option (ℕ × String) :=
  if cand.2.2 > acc.1 ∧ cand.2.2 ≥ match_threshold then
    (cand.2.2, some (cand.1, cand.2.1))
  else acc

/-- The fallback `{'keypoints': [], 'descriptors': None, 'color_hist': []}`
returned when no usable features exist. -/
def emptyFeatures : Features := Features.keypoint [] none []

/-- The per-frame keep-or-drop decision of `extract_multi_frame_features`
(lines 161-170): in deep mode a frame is kept when its embedding is truthy,
otherwise when its descriptors entry is not `None`. -/
def keepFrame (m : Matcher) (p : Image × Box) : Option Features :=
  let features := m.extractFeatures p.1 p.2
  if m.use_deep_features then
    if features.deepEmbedding ≠ [] then some features else none
  else
    if features.descriptorsGet ≠ none then some features else none

/-- `VisualMatcher.extract_multi_frame_features` (lines 147-229): extract
per-frame features, keep the usable ones, then either average-and-normalise
deep embeddings or concatenate keypoint descriptors and average the colour
histograms. -/
def extract_multi_frame_features (m : Matcher) (images : List Image)
    (bboxes : List Box) : Features :=
  let all_features := (images.zip bboxes).filterMap (keepFrame m)
  if all_features.isEmpty then emptyFeatures
  else if m.use_deep_features ∧ (all_features.headD emptyFeatures).isDeep then
    let embeddings := all_features.map Features.deepEmbedding
    let avg_embedding := avgVecs embeddings
    let norm := m.l2norm avg_embedding
    let avg_embedding :=
      if norm > 0 then avg_embedding.map (· / norm) else avg_embedding
    Features.deep avg_embedding
  else
    let keypoints := all_features.flatMap Features.keypointsGet
    let descriptors := all_features.flatMap (fun f => f.descriptorsGet.getD [])
    let color_hist := all_features.flatMap Features.colorHist
    if descriptors.isEmpty then emptyFeatures
    else
      let color_hist :=
        if color_hist.isEmpty then color_hist
        else avgVecs (all_features.map Features.colorHist)
      Features.keypoint keypoints (some descriptors) color_hist

/-- Whether one enrollment frame yields usable features: it survives the
per-frame filter of `extract_multi_frame_features` *and* contributes a
non-empty embedding / non-empty descriptor list to the aggregate (the
truthiness tests of lines 165/169/211 and the validity check of
`finish_enrollment`). -/
def frameUsable (m : Matcher) (image : Image) (bbox : Box) : Prop :=
  let f := m.extractFeatures image bbox
  if m.use_deep_features then f.deepEmbedding ≠ [] else f.descTruthy = true

instance (m : Matcher) (image : Image) (bbox : Box) :
    Decidable (frameUsable m image bbox) := by
  unfold frameUsable; infer_instance

end VisualMatcher

namespace ObjectMemory

open VisualMatcher

/-- A row of the `remembered_objects` table (src/database.py lines 55-64). -/
structure RememberedObject where
  id : ℕ
  custom_name : String
  yolo_class : String
  visual_features : Features
  enrollment_frames : ℕ
deriving DecidableEq

/-- The `remembered_objects` table in rowid (insertion) order. -/
abbrev DB := List RememberedObject

/-- `VisionMateDB.get_remembered_objects_by_class` (database.py lines
212-228): all rows of the class, in rowid order, as
`(id, custom_name, visual_features)` tuples. -/
def get_remembered_objects_by_class (db : DB) (yolo_class : String) :
    List (ℕ × String × Features) :=
  (db.filter (fun o => o.yolo_class == yolo_class)).map
    (fun o => (o.id, o.custom_name, o.visual_features))

/-- `VisionMateDB.add_remembered_object` (database.py lines 167-192):
insert with a fresh AUTOINCREMENT id (always positive), or return `-1` and
leave the table unchanged when the UNIQUE constraint on `custom_name`
fires. -/
def add_remembered_object (db : DB) (custom_name yolo_class : String)
    (visual_features : Features) (enrollment_frames : ℕ) : ℤ × DB :=
  if db.any (fun o => o.custom_name == custom_name) then (-1, db)
  else
    let newId := (db.map (·.id)).foldl max 0 + 1
    ((newId : ℤ),
      db ++ [⟨newId, custom_name, yolo_class, visual_features, enrollment_frames⟩])

/-- The in-memory multi-frame enrollment buffer
(object_memory.py lines 38-43). -/
structure EnrollmentBuffer where
  images : List Image
  bboxes : List Box
  yolo_class : Option String
  custom_name : Option String

/-- The cleared buffer. -/
def emptyBuffer : EnrollmentBuffer := ⟨[], [], none, none⟩

/-- State of an `ObjectMemory` instance: its datastore plus the enrollment
buffer. -/
structure MemoryState where
  db : DB
  buffer : EnrollmentBuffer

/-- `ObjectMemory.finish_enrollment` (object_memory.py lines 92-154):
aggregate the buffered frames' features; fail (returning `False`, no
datastore write, buffer kept) when no enrollment is active or no usable
features were extracted; otherwise persist a `RememberedObject` and clear
the buffer. -/
def finish_enrollment (m : Matcher) (s : MemoryState) : Bool × MemoryState :=
  match s.buffer.custom_name with
  | none => (false, s)
  | some custom_name =>
      if s.buffer.images.length < 1 then (false, s)
      else
        let yolo_class := s.buffer.yolo_class.getD ""
        let features := extract_multi_frame_features m s.buffer.images s.buffer.bboxes
        if features.isDeep ∧ features.deepEmbedding = [] then (false, s)
        else if ¬features.isDeep ∧ ¬features.descTruthy then (false, s)
        else
          let r := add_remembered_object s.db custom_name yolo_class features
            s.buffer.images.length
          if r.1 > 0 then (true, ⟨r.2, emptyBuffer⟩)
          else (false, { s with db := r.2 })

/-- `ObjectMemory.recognize_object` (object_memory.py lines 166-207):
match a detection against the remembered objects of its YOLO class;
`none` when there are no candidates, the query yields no usable features,
or no candidate passes `find_best_match`. -/
def recognize_object (m : Matcher) (s : MemoryState) (image : Image)
    (bbox : Box) (yolo_class : String) : Option (String × ℚ) :=
  let candidates := get_remembered_objects_by_class s.db yolo_class
  if candidates.isEmpty then none
  else
    let query_features := m.extractFeatures image bbox
    if query_features.isDeep ∧ query_features.deepEmbedding = [] then none
    else if ¬query_features.isDeep ∧ ¬query_features.descTruthy then none
    else
      match find_best_match m query_features candidates with
      | some (_, custom_name, confidence) => some (custom_name, confidence)
      | none => none

/-- Specification-side recogniser: `recognize_object` with the selection
loop replaced by the declarative rule `find_best_match_spec` (the earliest
candidate whose confidence is at or above the threshold and maximal). -/
def recognize_object_spec (m : Matcher) (s : MemoryState) (image : Image)
    (bbox : Box) (yolo_class : String) : Option (String × ℚ) :=
  let candidates := get_remembered_objects_by_class s.db yolo_class
  if candidates.isEmpty then none
  else
    let query_features := m.extractFeatures image bbox
    if query_features.isDeep ∧ query_features.deepEmbedding = [] then none
    else if ¬query_features.isDeep ∧ ¬query_features.descTruthy then none
    else
      match find_best_match_spec m query_features candidates with
      | some (_, custom_name, confidence) => some (custom_name, confidence)
      | none => none

end ObjectMemory

namespace NavigationEngine

noncomputable section

/-- Python `math.radians`. -/
def radians (x : ℝ) : ℝ := x * Real.pi / 180

/-- Python `math.atan2(y, x)`. -/
def atan2 (y x : ℝ) : ℝ :=
  if 0 < x then Real.arctan (y / x)
  else if x < 0 then
    (if 0 ≤ y then Real.arctan (y / x) + Real.pi
     else Real.arctan (y / x) - Real.pi)
  else if 0 < y then Real.pi / 2
  else if y < 0 then -(Real.pi / 2)
  else 0

/-- `NavigationEngine._haversine_distance` (src/navigation_engine.py lines
183-202): great-circle distance in metres, Earth radius 6,371,000 m. -/
def _haversine_distance (lat1 lon1 lat2 lon2 : ℝ) : ℝ :=
  let R : ℝ := 6371000
  let phi1 := radians lat1
  let phi2 := radians lat2
  let delta_phi := radians (lat2 - lat1)
  let delta_lambda := radians (lon2 - lon1)
  let a := Real.sin (delta_phi / 2) ^ 2 +
    Real.cos phi1 * Real.cos phi2 * Real.sin (delta_lambda / 2) ^ 2
  let c := 2 * atan2 (Real.sqrt a) (Real.sqrt (1 - a))
  R * c

/-- The `transit` sub-dict of a route step (google_maps_navigator.py
lines 160-162). -/
structure Transit where
  vehicle : String
  line : String
  departure_stop : String

/-- One entry of `route['steps']`: instruction text, optional transit info,
and the `end_location` coordinates. -/
structure RouteStep where
  instruction : String
  transit : Option Transit
  end_lat : ℝ
  end_lng : ℝ

/-- A loaded route (only `steps` is read by `update`). -/
structure Route where
  steps : List RouteStep

/-- Out-of-range list access placeholder; every modelled call site is
guarded so it is never the value actually read. -/
def dummyStep : RouteStep := ⟨"", none, 0, 0⟩

/-- The step-tracking state of the `GoogleMapsNavigator` collaborator
(`current_route`, `current_step_index`). -/
structure MapsState where
  current_route : Option Route
  current_step_index : ℕ

/-- `GoogleMapsNavigator.get_current_instruction` (google_maps_navigator.py
lines 151-164). -/
def get_current_instruction (m : MapsState) : Option String :=
  match m.current_route with
  | none => none
  | some r =>
      if r.steps.length ≤ m.current_step_index then none
      else
        let step := r.steps.getD m.current_step_index dummyStep
        match step.transit with
        | some t =>
            some ("Take " ++ t.vehicle ++ " " ++ t.line ++ " from " ++
              t.departure_stop)
        | none => some step.instruction

/-- `GoogleMapsNavigator.advance_step` (lines 166-170); it returns `None`. -/
def advance_step (m : MapsState) : MapsState :=
  match m.current_route with
  | some _ => { m with current_step_index := m.current_step_index + 1 }
  | none => m

/-- `NavigationEngine` state (navigation_engine.py lines 21-48), together
with the maps collaborator's own step state.  The GPS tracker is external;
each `update` receives its reading as an argument. -/
structure Engine where
  announcement_distance : ℝ
  reroute_distance : ℝ
  arrival_distance : ℝ
  active_route : Option Route
  current_step : ℕ
  last_announcement : Option ℕ
  navigation_active : Bool
  maps : MapsState

/-- `_calculate_distance_to_waypoint` (lines 155-170); `route` is the
engine's (non-`None`) `active_route` at every call site. -/
def _calculate_distance_to_waypoint (e : Engine) (route : Route)
    (current_pos : ℝ × ℝ) : ℝ :=
  let step := route.steps.getD e.current_step dummyStep
  _haversine_distance current_pos.1 current_pos.2 step.end_lat step.end_lng

/-- `_calculate_distance_to_destination` (lines 172-181): distance to the
final step's endpoint (`steps[-1]`). -/
def _calculate_distance_to_destination (route : Route) (current_pos : ℝ × ℝ) : ℝ :=
  let final_step := route.steps.getLastD dummyStep
  _haversine_distance current_pos.1 current_pos.2 final_step.end_lat
    final_step.end_lng

/-- `_is_arrived` (lines 204-207): note the strict `<`. -/
def _is_arrived (e : Engine) (route : Route) (current_pos : ℝ × ℝ) : Prop :=
  _calculate_distance_to_destination route current_pos < e.arrival_distance

instance (e : Engine) (route : Route) (p : ℝ × ℝ) :
    Decidable (_is_arrived e route p) := by
  unfold _is_arrived; infer_instance

/-- `_calculate_deviation` (lines 214-220): approximated as the distance to
the current waypoint. -/
def _calculate_deviation (e : Engine) (route : Route) (current_pos : ℝ × ℝ) : ℝ :=
  _calculate_distance_to_waypoint e route current_pos

/-- `_is_off_route` (lines 209-212). -/
def _is_off_route (e : Engine) (route : Route) (current_pos : ℝ × ℝ) : Prop :=
  _calculate_deviation e route current_pos > e.reroute_distance

instance (e : Engine) (route : Route) (p : ℝ × ℝ) :
    Decidable (_is_off_route e route p) := by
  unfold _is_off_route; infer_instance

/-- `_should_announce` (lines 222-232); the source mutates
`self.last_announcement`, so the result is the flag plus the new value of
that field. -/
def _should_announce (e : Engine) (distance_to_waypoint : ℝ) : Bool × Option ℕ :=
  if distance_to_waypoint ≤ e.announcement_distance then
    if e.last_announcement ≠ some e.current_step then (true, some e.current_step)
    else (false, e.last_announcement)
  else (false, e.last_announcement)

/-- The status dict returned by `update` (lines 95-153), one constructor
per `status` value with the fields the source attaches. -/
inductive NavResult
  | inactive
  | noGps
  | arrived (message : String) (distance_to_destination : ℝ)
  | offRoute (message : String) (deviation : ℝ)
  | noInstruction
  | navigating (instruction : String) (distance_to_waypoint : ℝ)
      (current_step : ℕ) (total_steps : ℕ) (announce : Bool)

/-- `status == 'arrived'`. -/
def NavResult.isArrived : NavResult → Bool
  | .arrived _ _ => true
  | _ => false

/-- `status == 'inactive'`. -/
def NavResult.isInactive : NavResult → Bool
  | .inactive => true
  | _ => false

/-- `status == 'off_route'`. -/
def NavResult.isOffRoute : NavResult → Bool
  | .offRoute _ _ => true
  | _ => false

/-- `result['announce']` (false for every non-`navigating` status, which
carries no such key). -/
def NavResult.announces : NavResult → Bool
  | .navigating _ _ _ _ a => a
  | _ => false

/-- `NavigationEngine.update` (lines 95-153).  Notes: the arrival branch
only clears `navigation_active`; the off-route branch returns before the
announcement logic; `advance_step()` returns `None`, so the
`self.current_step += 1` / `last_announcement = None` block behind
`if self.maps.advance_step():` is dead code and only the maps-side index
advances. -/
def update (e : Engine) (gps_position : Option (ℝ × ℝ)) : NavResult × Engine :=
  if ¬e.navigation_active then (.inactive, e)
  else
    match e.active_route with
    | none => (.inactive, e)
    | some route =>
        match gps_position with
        | none => (.noGps, e)
        | some current_pos =>
            if _is_arrived e route current_pos then
              (.arrived "You have arrived at your destination"
                  (_calculate_distance_to_destination route current_pos),
                { e with navigation_active := false })
            else if _is_off_route e route current_pos then
              (.offRoute "You are off route. Recalculating..."
                  (_calculate_deviation e route current_pos), e)
            else
              match get_current_instruction e.maps with
              | none => (.noInstruction, e)
              | some instruction =>
                  let distance_to_waypoint :=
                    _calculate_distance_to_waypoint e route current_pos
                  let sa := _should_announce e distance_to_waypoint
                  let e1 : Engine := { e with last_announcement := sa.2 }
                  let result := NavResult.navigating instruction
                    distance_to_waypoint (e1.current_step + 1)
                    route.steps.length sa.1
                  let e2 : Engine :=
                    if distance_to_waypoint < 10 then
                      { e1 with maps := advance_step e1.maps }
                    else e1
                  (result, e2)

end

end NavigationEngine

/-!
## Claim proofs

Concrete evaluations go through the kernel; the arithmetic of `ℚ` is made
reducible locally so that `decide` can normalise it.
-/

section ClaimProofs

attribute [local semireducible] Rat.sub Rat.add Rat.mul Rat.inv

open ItemTracker

/-- C6 counterexample: the degenerate box `a = (0,0,0,0)` is valid
(`x1 ≤ x2`, `y1 ≤ y2`), yet `calculate_iou a a` is `0`, not `1.0` — the
zero-area-union rule wins over the reflexivity clause of the claim. -/
theorem C6_counterexample :
    validBox ⟨0, 0, 0, 0⟩ ∧
    calculate_iou ⟨0, 0, 0, 0⟩ ⟨0, 0, 0, 0⟩ = 0 ∧
    calculate_iou ⟨0, 0, 0, 0⟩ ⟨0, 0, 0, 0⟩ ≠ 1 := by
  refine ⟨by decide, by decide, by decide⟩

/-- C6 (amended): for valid boxes, `IoU(a,a) = 1.0` whenever `a` has
positive area; `IoU` is symmetric for all boxes; `IoU` of non-overlapping
boxes is `0.0`; and when both boxes are degenerate (union of zero area)
the result is `0`, not an error. -/
theorem C6_iou_properties :
    (∀ a : Box, validBox a → 0 < boxArea a → calculate_iou a a = 1) ∧
    (∀ a b : Box, calculate_iou a b = calculate_iou b a) ∧
    (∀ a b : Box, validBox a → validBox b → nonoverlapping a b →
      calculate_iou a b = 0) ∧
    (∀ a b : Box, validBox a → validBox b → boxArea a = 0 → boxArea b = 0 →
      calculate_iou a b = 0) := by
  refine ⟨?_, ?_, ?_, ?_⟩
  · intro a hv hpos
    obtain ⟨hx, hy⟩ := hv
    have hA : 0 < (a.x2 - a.x1) * (a.y2 - a.y1) := hpos
    simp only [calculate_iou, max_self, min_self]
    rw [if_neg (by omega : ¬(a.x2 < a.x1 ∨ a.y2 < a.y1))]
    rw [if_neg (by intro h; nlinarith :
      ¬((a.x2 - a.x1) * (a.y2 - a.y1) + (a.x2 - a.x1) * (a.y2 - a.y1) -
        (a.x2 - a.x1) * (a.y2 - a.y1) = 0))]
    rw [show (a.x2 - a.x1) * (a.y2 - a.y1) + (a.x2 - a.x1) * (a.y2 - a.y1) -
      (a.x2 - a.x1) * (a.y2 - a.y1) = (a.x2 - a.x1) * (a.y2 - a.y1) from by ring]
    exact div_self (Int.cast_ne_zero.mpr (by nlinarith))
  · intro a b
    simp only [calculate_iou, max_comm a.x1 b.x1, max_comm a.y1 b.y1,
      min_comm a.x2 b.x2, min_comm a.y2 b.y2,
      add_comm ((a.x2 - a.x1) * (a.y2 - a.y1)) ((b.x2 - b.x1) * (b.y2 - b.y1))]
  · intro a b hva hvb hno
    simp only [calculate_iou]
    by_cases h : min a.x2 b.x2 < max a.x1 b.x1 ∨ min a.y2 b.y2 < max a.y1 b.y1
    · rw [if_pos h]
    · rw [if_neg h]
      push_neg at h
      have hi : (min a.x2 b.x2 - max a.x1 b.x1) *
          (min a.y2 b.y2 - max a.y1 b.y1) = 0 := by
        rcases hno with h1 | h1
        · apply mul_eq_zero.mpr; left; omega
        · apply mul_eq_zero.mpr; right; omega
      rw [hi]
      split_ifs with h2
      · rfl
      · simp
  · intro a b hva hvb ha hb
    obtain ⟨hax, hay⟩ := hva
    obtain ⟨hbx, hby⟩ := hvb
    simp only [boxArea] at ha hb
    simp only [calculate_iou]
    by_cases h : min a.x2 b.x2 < max a.x1 b.x1 ∨ min a.y2 b.y2 < max a.y1 b.y1
    · rw [if_pos h]
    · rw [if_neg h]
      push_neg at h
      have hi : (min a.x2 b.x2 - max a.x1 b.x1) *
          (min a.y2 b.y2 - max a.y1 b.y1) = 0 := by
        rcases mul_eq_zero.mp ha with h1 | h1
        · apply mul_eq_zero.mpr; left; omega
        · apply mul_eq_zero.mpr; right; omega
      rw [hi, ha, hb]
      norm_num


/-- Witness for `C6_iou_properties` at concrete boxes: `a = (0,0,2,3)`
(positive area), `b = (10,10,11,11)` (disjoint from `a`), and the
degenerate pair `(5,5,5,9)`, `(7,2,7,4)`. -/
theorem C6_iou_properties_witness :
    (validBox ⟨0, 0, 2, 3⟩ ∧ 0 < boxArea ⟨0, 0, 2, 3⟩ ∧
      calculate_iou ⟨0, 0, 2, 3⟩ ⟨0, 0, 2, 3⟩ = 1) ∧
    (validBox ⟨10, 10, 11, 11⟩ ∧ nonoverlapping ⟨0, 0, 2, 3⟩ ⟨10, 10, 11, 11⟩ ∧
      calculate_iou ⟨0, 0, 2, 3⟩ ⟨10, 10, 11, 11⟩ = 0) ∧
    (validBox ⟨5, 5, 5, 9⟩ ∧ validBox ⟨7, 2, 7, 4⟩ ∧
      boxArea ⟨5, 5, 5, 9⟩ = 0 ∧ boxArea ⟨7, 2, 7, 4⟩ = 0 ∧
      calculate_iou ⟨5, 5, 5, 9⟩ ⟨7, 2, 7, 4⟩ = 0) :=
  ⟨⟨by decide, by decide,
      C6_iou_properties.1 ⟨0, 0, 2, 3⟩ (by decide) (by decide)⟩,
   ⟨by decide, by decide,
      C6_iou_properties.2.2.1 ⟨0, 0, 2, 3⟩ ⟨10, 10, 11, 11⟩ (by decide) (by decide)
        (by decide)⟩,
   ⟨by decide, by decide, by decide, by decide,
      C6_iou_properties.2.2.2 ⟨5, 5, 5, 9⟩ ⟨7, 2, 7, 4⟩ (by decide) (by decide)
        (by decide) (by decide)⟩⟩

/-- C8: for a chair at `(50,400,150,470)` and a person at `(500,200,600,300)`
in a 640×480 frame with no range sensor, the chair occupies the
bottom-adjacent zone `bottom-left` and the person the side zone `right`;
with both blocked, the aggregate directional entry of `generate_guidance`
is the priority-1 "Path blocked, stop" message. -/
theorem C8_blocked_path_scenario :
    SpatialNavigator.get_object_zone SpatialNavigator.defaultNav
      ⟨50, 400, 150, 470⟩ = "bottom-left" ∧
    SpatialNavigator.get_object_zone SpatialNavigator.defaultNav
      ⟨500, 200, 600, 300⟩ = "right" ∧
    SpatialNavigator.get_clear_direction ["bottom-left", "right"] = none ∧
    SpatialNavigator.generate_guidance SpatialNavigator.defaultNav
      [⟨"chair", ⟨50, 400, 150, 470⟩⟩, ⟨"person", ⟨500, 200, 600, 300⟩⟩] =
    [⟨"Chair bottom left", 1, "bottom-left", "far", "chair",
        some ⟨50, 400, 150, 470⟩⟩,
      ⟨"Path blocked, stop", 1, "navigation", "immediate", "emergency", none⟩,
      ⟨"Person right", 2, "right", "far", "person",
        some ⟨500, 200, 600, 300⟩⟩] := by
  refine ⟨by decide, by decide, by decide, by decide⟩

/-- C7: for every list of detections, the guidance entries produced by one
`generate_guidance` cycle come back sorted in ascending priority order, and
the number of obstacle-warning messages emitted per
`generate_obstacle_warnings` cycle is capped at the top 3. -/
theorem C7_sorted_and_capped :
    (∀ (nav : SpatialNavigator.Nav) (detections : List Detection),
      List.Sorted (fun a b => a.priority ≤ b.priority)
        (SpatialNavigator.generate_guidance nav detections)) ∧
    (∀ (f : ObstacleFusion.Fusion) (ultrasonic_distance : Option ℚ)
      (objects : List Detection),
      (ObstacleFusion.generate_obstacle_warnings f ultrasonic_distance
        objects).length ≤ 3) := by
  constructor
  · intro nav detections
    unfold SpatialNavigator.generate_guidance
    exact List.sorted_insertionSort _ _
  · intro f ultrasonic_distance objects
    unfold ObstacleFusion.generate_obstacle_warnings
    simp only [List.length_map, List.length_take]
    exact min_le_left _ _

namespace AudioFeedback

theorem charsLt_irrefl (l : List Char) : charsLt l l = false := by
  induction l with
  | nil => rfl
  | cons c cs ih => simp [charsLt, ih]

theorem charsLt_asymm {a b : List Char} (h : charsLt a b = true) :
    charsLt b a = false := by
  induction a generalizing b with
  | nil =>
      cases b with
      | nil => simp [charsLt] at h
      | cons d ds => rfl
  | cons c cs ih =>
      cases b with
      | nil => simp [charsLt] at h
      | cons d ds =>
        simp only [charsLt, Bool.or_eq_true, Bool.and_eq_true,
          decide_eq_true_eq] at h
        simp only [charsLt, Bool.or_eq_false_iff, Bool.and_eq_false_iff,
          decide_eq_false_iff_not]
        rcases h with h | ⟨he, hlt⟩
        · exact ⟨by omega, Or.inl (by omega)⟩
        · exact ⟨by omega, Or.inr (ih hlt)⟩

theorem charsLt_neg_trans {a b c : List Char} (h1 : charsLt b a = false)
    (h2 : charsLt c b = false) : charsLt c a = false := by
  induction a generalizing b c with
  | nil =>
      cases c with
      | nil => rfl
      | cons z zs => rfl
  | cons x xs ih =>
      cases b with
      | nil => simp [charsLt] at h1
      | cons y ys =>
        cases c with
        | nil => simp [charsLt] at h2
        | cons z zs =>
          simp only [charsLt, Bool.or_eq_false_iff, Bool.and_eq_false_iff,
            decide_eq_false_iff_not] at h1 h2 ⊢
          obtain ⟨hyx, hd1⟩ := h1
          obtain ⟨hzy, hd2⟩ := h2
          refine ⟨by omega, ?_⟩
          by_cases hzx : z.toNat = x.toNat
          · right
            have hyx' : y.toNat = x.toNat := by omega
            rcases hd1 with hd1 | hd1
            · omega
            · rcases hd2 with hd2 | hd2
              · omega
              · exact ih hd1 hd2
          · exact Or.inl hzx

theorem msgLe_refl (a : Msg) : msgLe a a :=
  Or.inr ⟨rfl, charsLt_irrefl _⟩

theorem msgLe_trans {a b c : Msg} (h1 : msgLe a b) (h2 : msgLe b c) :
    msgLe a c := by
  rcases h1 with h1 | ⟨e1, l1⟩ <;> rcases h2 with h2 | ⟨e2, l2⟩
  · exact Or.inl (lt_trans h1 h2)
  · exact Or.inl (e2 ▸ h1)
  · exact Or.inl (e1 ▸ h2)
  · refine Or.inr ⟨e1.trans e2, ?_⟩
    unfold strLe at l1 l2 ⊢
    exact charsLt_neg_trans l1 l2

theorem msgLt_true_le {a b : Msg} (h : msgLt a b = true) : msgLe a b := by
  unfold msgLt at h
  simp only [Bool.or_eq_true, Bool.and_eq_true, decide_eq_true_eq] at h
  rcases h with h | ⟨h1, h2⟩
  · exact Or.inl h
  · exact Or.inr ⟨h1, charsLt_asymm h2⟩

theorem msgLt_false_le {a b : Msg} (h : msgLt b a = false) : msgLe a b := by
  unfold msgLt at h
  simp only [Bool.or_eq_false_iff, Bool.and_eq_false_iff,
    decide_eq_false_iff_not] at h
  obtain ⟨h1, h2⟩ := h
  rcases Nat.lt_or_ge a.1 b.1 with hlt | hge
  · exact Or.inl hlt
  · have he : a.1 = b.1 := le_antisymm (not_lt.mp h1) hge
    rcases h2 with h2 | h2
    · exact absurd he.symm h2
    · exact Or.inr ⟨he, h2⟩

theorem foldlMin_spec (x : Msg) (xs : List Msg) :
    (xs.foldl (fun a b => if msgLt b a then b else a) x = x ∨
      xs.foldl (fun a b => if msgLt b a then b else a) x ∈ xs) ∧
    msgLe (xs.foldl (fun a b => if msgLt b a then b else a) x) x ∧
    ∀ b ∈ xs, msgLe (xs.foldl (fun a b => if msgLt b a then b else a) x) b := by
  induction xs generalizing x with
  | nil => exact ⟨Or.inl rfl, msgLe_refl x, by simp⟩
  | cons y ys ih =>
    simp only [List.foldl_cons]
    have hx'x : msgLe (if msgLt y x then y else x) x := by
      cases h : msgLt y x with
      | true => simpa [h] using msgLt_true_le h
      | false => simp [h, msgLe_refl]
    have hx'y : msgLe (if msgLt y x then y else x) y := by
      cases h : msgLt y x with
      | true => simp [h, msgLe_refl]
      | false => simpa [h] using msgLt_false_le h
    obtain ⟨hmem, hle, hall⟩ := ih (if msgLt y x then y else x)
    refine ⟨?_, msgLe_trans hle hx'x, ?_⟩
    · rcases hmem with hmem | hmem
      · cases h : msgLt y x with
        | true => rw [h] at hmem; simp at hmem; exact Or.inr (by simp [hmem])
        | false => rw [h] at hmem; simp at hmem; exact Or.inl hmem
      · exact Or.inr (List.mem_cons_of_mem _ hmem)
    · intro b hb
      rcases List.mem_cons.mp hb with rfl | hb
      · exact msgLe_trans hle hx'y
      · exact hall b hb

theorem popMin_some_spec {q : List Msg} {m : Msg} {rest : List Msg}
    (h : popMin q = some (m, rest)) :
    m ∈ q ∧ rest = q.erase m ∧ ∀ x ∈ q, msgLe m x := by
  cases q with
  | nil => simp [popMin] at h
  | cons x xs =>
    simp only [popMin, Option.some.injEq, Prod.mk.injEq] at h
    obtain ⟨h1, h2⟩ := h
    obtain ⟨hmem, hle, hall⟩ := foldlMin_spec x xs
    subst h1
    refine ⟨?_, h2.symm, ?_⟩
    · rcases hmem with hm | hm
      · rw [hm]; exact List.mem_cons_self _ _
      · exact List.mem_cons_of_mem _ hm
    · intro z hz
      rcases List.mem_cons.mp hz with rfl | hz
      · exact hle
      · exact hall z hz

theorem drainAux_mem {n : ℕ} {q : List Msg} {y : Msg}
    (h : y ∈ drainAux n q) : y ∈ q := by
  induction n generalizing q with
  | zero => simp [drainAux] at h
  | succ n ih =>
    unfold drainAux at h
    cases hp : popMin q with
    | none => rw [hp] at h; simp at h
    | some mr =>
      rw [hp] at h
      obtain ⟨m, rest⟩ := mr
      obtain ⟨hmem, hrest, -⟩ := popMin_some_spec hp
      rcases List.mem_cons.mp h with rfl | h
      · exact hmem
      · exact List.mem_of_mem_erase (hrest ▸ ih h)

theorem drainAux_sorted (n : ℕ) (q : List Msg) :
    List.Sorted msgLe (drainAux n q) := by
  induction n generalizing q with
  | zero => simp [drainAux]
  | succ n ih =>
    unfold drainAux
    cases hp : popMin q with
    | none => simp
    | some mr =>
      obtain ⟨m, rest⟩ := mr
      obtain ⟨hmem, hrest, hall⟩ := popMin_some_spec hp
      refine List.sorted_cons.mpr ⟨?_, ih rest⟩
      intro y hy
      exact hall y (List.mem_of_mem_erase (hrest ▸ drainAux_mem hy))

theorem drain_sorted (q : List Msg) : List.Sorted msgLe (drain q) :=
  drainAux_sorted _ _

end AudioFeedback

/-- C1 counterexample: two messages of equal (Navigational) priority,
enqueued while nothing is playing, are *not* consumed in FIFO order —
"bottle left", enqueued second, plays before "chair ahead": the
`PriorityQueue` key is `(priority, text)`, so ties are broken by the
lexicographic order of the message text, not by arrival. -/
theorem C1_counterexample :
    AudioFeedback.drain (AudioFeedback.speak (AudioFeedback.speak ⟨[], false⟩
        "chair ahead" AudioFeedback.PRIORITY_NAVIGATIONAL false)
      "bottle left" AudioFeedback.PRIORITY_NAVIGATIONAL false).queue =
      [(AudioFeedback.PRIORITY_NAVIGATIONAL, "bottle left"),
       (AudioFeedback.PRIORITY_NAVIGATIONAL, "chair ahead")] ∧
    ("bottle left" : String) ≠ "chair ahead" := by
  refine ⟨by decide, by decide⟩

/-- C1 (amended): queued-but-not-yet-playing messages are consumed in order
of the key `(priority, text)` — lower priority number first, ties broken by
the lexicographic order of the message text (not FIFO arrival).  In the
Status / Navigational / Emergency(interrupt) scenario the Emergency message
plays before the other two regardless of enqueue order, and the two
non-emergency messages play in priority order (Navigational before Status),
not in their arrival order. -/
theorem C1_audio_scheduler_order :
    (∀ q : List AudioFeedback.Msg,
      List.Sorted AudioFeedback.msgLe (AudioFeedback.drain q)) ∧
    AudioFeedback.drain (AudioFeedback.speak (AudioFeedback.speak
        (AudioFeedback.speak ⟨[], false⟩ "System initialized"
          AudioFeedback.PRIORITY_STATUS false)
        "Chair ahead" AudioFeedback.PRIORITY_NAVIGATIONAL false)
        "STOP - Red Light" AudioFeedback.PRIORITY_EMERGENCY true).queue =
      [(AudioFeedback.PRIORITY_EMERGENCY, "STOP - Red Light"),
       (AudioFeedback.PRIORITY_NAVIGATIONAL, "Chair ahead"),
       (AudioFeedback.PRIORITY_STATUS, "System initialized")] :=
  ⟨AudioFeedback.drain_sorted, by decide⟩

theorem find_congr_on_mem {α : Type} {p q : α → Bool} :
    ∀ {l : List α}, (∀ x ∈ l, p x = q x) → l.find? p = l.find? q := by
  intro l
  induction l with
  | nil => intro _; rfl
  | cons x xs ih =>
      intro h
      have hx : p x = q x := h x (List.mem_cons_self _ _)
      rw [List.find?_cons, List.find?_cons, hx]
      cases hq : q x with
      | true => rfl
      | false => exact ih (fun y hy => h y (List.mem_cons_of_mem _ hy))

namespace VisualMatcher

theorem find_best_match_eq_run (m : Matcher) (q : Features)
    (cands : List (ℕ × String × Features)) :
    find_best_match m q cands =
      match (scoredCandidates m q cands).foldl (bestStep m.match_threshold)
          (0, none) with
      | (best_confidence, some p) => some (p.1, p.2, best_confidence)
      | (_, none) => none := by
  unfold find_best_match scoredCandidates
  by_cases h : cands.isEmpty
  · rw [if_pos h, List.isEmpty_iff.mp h]
    rfl
  · rw [if_neg h, List.foldl_map]
    have hfun : (fun (acc : ℚ × Option (ℕ × String)) (cand : ℕ × String × Features) =>
        let confidence := (match_features m q cand.2.2).1
        if confidence > acc.1 ∧ confidence ≥ m.match_threshold then
          (confidence, some (cand.1, cand.2.1))
        else acc) =
        (fun acc y => bestStep m.match_threshold acc
          (y.1, y.2.1, (match_features m q y.2.2).1)) := by
      funext acc cand
      simp only [bestStep]
    rw [hfun]
    rcases hfold : cands.foldl (fun acc y => bestStep m.match_threshold acc
        (y.1, y.2.1, (match_features m q y.2.2).1)) (0, none) with ⟨conf, opt⟩
    rw [hfold]
    cases opt with
    | none => rfl
    | some p =>
        cases p with
        | mk i n => rfl

theorem exists_top :
    ∀ (l : List (ℕ × String × ℚ)), l ≠ [] →
      ∃ c ∈ l, ∀ d ∈ l, d.2.2 ≤ c.2.2 := by
  intro l
  induction l with
  | nil => intro h; exact absurd rfl h
  | cons x xs ih =>
      intro _
      by_cases hxs : xs = []
      · subst hxs
        refine ⟨x, List.mem_cons_self _ _, ?_⟩
        intro d hd
        rcases List.mem_cons.mp hd with rfl | hd
        · exact le_refl _
        · simp at hd
      · obtain ⟨c, hc, hmax⟩ := ih hxs
        by_cases hcx : x.2.2 ≤ c.2.2
        · refine ⟨c, List.mem_cons_of_mem _ hc, ?_⟩
          intro d hd
          rcases List.mem_cons.mp hd with rfl | hd
          · exact hcx
          · exact hmax d hd
        · refine ⟨x, List.mem_cons_self _ _, ?_⟩
          intro d hd
          rcases List.mem_cons.mp hd with rfl | hd
          · exact le_refl _
          · exact le_trans (hmax d hd) (le_of_not_le hcx)

theorem foldl_bestStep_spec (th : ℚ) :
    ∀ (l : List (ℕ × String × ℚ)) (b : ℚ) (o : Option (ℕ × String)),
      l.foldl (bestStep th) (b, o) =
        match l.find? (fun c => decide (b < c.2.2) && decide (th ≤ c.2.2) &&
            l.all (fun d => decide (d.2.2 ≤ c.2.2))) with
        | some c => (c.2.2, some (c.1, c.2.1))
        | none => (b, o) := by
  intro l
  induction l with
  | nil => intro b o; rfl
  | cons x rest ih =>
      intro b o
      rw [List.foldl_cons]
      rw [List.find?_cons]
      by_cases hcond : b < x.2.2 ∧ th ≤ x.2.2
      · have hstep : bestStep th (b, o) x = (x.2.2, some (x.1, x.2.1)) := by
          unfold bestStep
          rw [if_pos ⟨hcond.1, hcond.2⟩]
        rw [hstep, ih]
        by_cases hall : ∀ d ∈ rest, d.2.2 ≤ x.2.2
        · have hx : (decide (b < x.2.2) && decide (th ≤ x.2.2) &&
              (x :: rest).all (fun d => decide (d.2.2 ≤ x.2.2))) = true := by
            simp only [Bool.and_eq_true, decide_eq_true_eq, List.all_eq_true]
            refine ⟨⟨hcond.1, hcond.2⟩, ?_⟩
            intro d hd
            rcases List.mem_cons.mp hd with rfl | hd
            · exact le_refl _
            · exact hall d hd
          rw [hx]
          have hnone : rest.find? (fun c => decide (x.2.2 < c.2.2) &&
              decide (th ≤ c.2.2) &&
              rest.all (fun d => decide (d.2.2 ≤ c.2.2))) = none := by
            rw [List.find?_eq_none]
            intro c hc
            simp only [Bool.and_eq_true, decide_eq_true_eq, not_and]
            intro h1
            exact absurd h1.1 (not_lt.mpr (hall c hc))
          rw [hnone]
        · have hy : ∃ y ∈ rest, x.2.2 < y.2.2 := by
            push_neg at hall
            exact hall
          have hx : (decide (b < x.2.2) && decide (th ≤ x.2.2) &&
              (x :: rest).all (fun d => decide (d.2.2 ≤ x.2.2))) = false := by
            obtain ⟨y, hy1, hy2⟩ := hy
            simp only [Bool.and_eq_false_iff, List.all_eq_false]
            right
            refine ⟨y, List.mem_cons_of_mem _ hy1, ?_⟩
            simpa using hy2
          rw [hx]
          have hcongr : ∀ c ∈ rest,
              (decide (b < c.2.2) && decide (th ≤ c.2.2) &&
                (x :: rest).all (fun d => decide (d.2.2 ≤ c.2.2))) =
              (decide (x.2.2 < c.2.2) && decide (th ≤ c.2.2) &&
                rest.all (fun d => decide (d.2.2 ≤ c.2.2))) := by
            intro c hc
            by_cases hqc : x.2.2 < c.2.2
            · have hbc : b < c.2.2 := lt_trans hcond.1 hqc
              have hxc : x.2.2 ≤ c.2.2 := le_of_lt hqc
              simp [List.all_cons, hbc, hqc, hxc]
            · have hcx : c.2.2 ≤ x.2.2 := not_lt.mp hqc
              obtain ⟨y, hy1, hy2⟩ := hy
              have hyfail : rest.all (fun d => decide (d.2.2 ≤ c.2.2)) = false := by
                rw [List.all_eq_false]
                refine ⟨y, hy1, ?_⟩
                simpa using lt_of_le_of_lt hcx hy2
              simp [List.all_cons, hyfail, hqc]
          rw [find_congr_on_mem hcongr]
          cases hf : rest.find? (fun c => decide (x.2.2 < c.2.2) &&
              decide (th ≤ c.2.2) &&
              rest.all (fun d => decide (d.2.2 ≤ c.2.2))) with
          | some c => rfl
          | none =>
              exfalso
              obtain ⟨y, hy1, hy2⟩ := hy
              obtain ⟨c, hc, hmax⟩ := exists_top rest (List.ne_nil_of_mem hy1)
              apply List.find?_eq_none.mp hf c hc
              have hxc : x.2.2 < c.2.2 := lt_of_lt_of_le hy2 (hmax y hy1)
              simp only [Bool.and_eq_true, decide_eq_true_eq, List.all_eq_true]
              exact ⟨⟨hxc, le_trans hcond.2 (le_of_lt hxc)⟩,
                fun d hd => by simpa using hmax d hd⟩
      · have hstep : bestStep th (b, o) x = (b, o) := by
          unfold bestStep
          rw [if_neg (fun hc => hcond ⟨hc.1, hc.2⟩)]
        rw [hstep, ih]
        have hx : (decide (b < x.2.2) && decide (th ≤ x.2.2) &&
            (x :: rest).all (fun d => decide (d.2.2 ≤ x.2.2))) = false := by
          rcases not_and_or.mp hcond with h1 | h1
          · simp [h1]
          · simp [h1]
        rw [hx]
        have hcongr : ∀ c ∈ rest,
            (decide (b < c.2.2) && decide (th ≤ c.2.2) &&
              (x :: rest).all (fun d => decide (d.2.2 ≤ c.2.2))) =
            (decide (b < c.2.2) && decide (th ≤ c.2.2) &&
              rest.all (fun d => decide (d.2.2 ≤ c.2.2))) := by
          intro c hc
          by_cases hbc : b < c.2.2 ∧ th ≤ c.2.2
          · have hqc : x.2.2 ≤ c.2.2 := by
              rcases not_and_or.mp hcond with h1 | h1
              · exact le_of_lt (lt_of_le_of_lt (not_lt.mp h1) hbc.1)
              · exact le_of_lt (lt_of_lt_of_le (not_le.mp h1) hbc.2)
            simp [List.all_cons, hbc.1, hbc.2, hqc]
          · rcases not_and_or.mp hbc with h1 | h1
            · simp [h1]
            · simp [h1]
        rw [find_congr_on_mem hcongr]

theorem find_best_match_eq_spec (m : Matcher) (q : Features)
    (cands : List (ℕ × String × Features)) (hth : 0 < m.match_threshold) :
    find_best_match m q cands = find_best_match_spec m q cands := by
  rw [find_best_match_eq_run, foldl_bestStep_spec]
  unfold find_best_match_spec
  have hcongr : ∀ c ∈ scoredCandidates m q cands,
      (decide ((0 : ℚ) < c.2.2) && decide (m.match_threshold ≤ c.2.2) &&
        (scoredCandidates m q cands).all (fun d => decide (d.2.2 ≤ c.2.2))) =
      (decide (m.match_threshold ≤ c.2.2) &&
        (scoredCandidates m q cands).all (fun d => decide (d.2.2 ≤ c.2.2))) := by
    intro c hc
    by_cases h : m.match_threshold ≤ c.2.2
    · have h0 : (0 : ℚ) < c.2.2 := lt_of_lt_of_le hth h
      simp [h, h0]
    · simp [h]
  rw [find_congr_on_mem hcongr]
  cases hf : (scoredCandidates m q cands).find? (fun c =>
      decide (m.match_threshold ≤ c.2.2) &&
      (scoredCandidates m q cands).all (fun d => decide (d.2.2 ≤ c.2.2))) with
  | none => rfl
  | some c => rfl

theorem descTruthy_false_getD {f : Features} (h : f.descTruthy = false) :
    f.descriptorsGet.getD [] = [] := by
  unfold Features.descTruthy at h
  cases hd : f.descriptorsGet with
  | none => simp
  | some l =>
      rw [hd] at h
      simp only [Bool.not_eq_false'] at h
      simp [hd, List.isEmpty_iff.mp h]

theorem keepFrame_some_inv {m : Matcher} {p : Image × Box} {f : Features}
    (hm : m.use_deep_features = false) (hfp : keepFrame m p = some f) :
    f = m.extractFeatures p.1 p.2 ∧
    (m.extractFeatures p.1 p.2).descriptorsGet ≠ none := by
  unfold keepFrame at hfp
  rw [hm] at hfp
  simp only [Bool.false_eq_true, if_false] at hfp
  by_cases hd : (m.extractFeatures p.1 p.2).descriptorsGet = none
  · rw [if_neg (by simp [hd])] at hfp
    exact absurd hfp (by simp)
  · rw [if_pos hd] at hfp
    exact ⟨(Option.some.inj hfp).symm, hd⟩

theorem extract_multi_frame_unusable (m : Matcher) (images : List Image)
    (bboxes : List Box)
    (h : ∀ p ∈ images.zip bboxes, ¬ frameUsable m p.1 p.2) :
    extract_multi_frame_features m images bboxes = emptyFeatures := by
  unfold extract_multi_frame_features
  cases hm : m.use_deep_features with
  | true =>
      have hnil : (images.zip bboxes).filterMap (keepFrame m) = [] := by
        rw [List.filterMap_eq_nil_iff]
        intro p hp
        have hu := h p hp
        unfold frameUsable at hu
        rw [hm] at hu
        simp only [if_true, ne_eq, not_not] at hu
        unfold keepFrame
        rw [hm]
        simp [hu]
      rw [hnil]
      rfl
  | false =>
      by_cases hemp : ((images.zip bboxes).filterMap (keepFrame m)).isEmpty
      · simp only [hemp, if_true]
      · have hempf : ((images.zip bboxes).filterMap (keepFrame m)).isEmpty = false := by
          simpa using hemp
        have hdesc : ((images.zip bboxes).filterMap (keepFrame m)).flatMap
            (fun f => f.descriptorsGet.getD []) = [] := by
          rw [List.flatMap_eq_nil_iff]
          intro f hf
          rw [List.mem_filterMap] at hf
          obtain ⟨p, hp, hfp⟩ := hf
          obtain ⟨hfe, -⟩ := keepFrame_some_inv hm hfp
          have hu := h p hp
          unfold frameUsable at hu
          rw [hm] at hu
          simp only [Bool.false_eq_true, if_false, Bool.not_eq_true] at hu
          rw [hfe]
          exact descTruthy_false_getD hu
        simp [hempf, hm, hdesc]

end VisualMatcher

/-- C5 counterexample: with match threshold `0.5`, a single remembered
"keys" object whose confidence against the query is exactly `0.5` — at,
not strictly above, the threshold — is still returned by `recognize`
(`find_best_match` tests `confidence >= self.match_threshold`), so the
claim's prediction of `None` in this case is wrong. -/
theorem C5_counterexample :
    let m : VisualMatcher.Matcher :=
      ⟨1/2, true, fun _ _ => .deep [1], fun _ _ => 0, fun _ _ => 0, fun _ => 0⟩
    let s : ObjectMemory.MemoryState :=
      ⟨[⟨1, "spare keys", "keys", .deep [1/2], 1⟩], ObjectMemory.emptyBuffer⟩
    ObjectMemory.recognize_object m s 0 ⟨0, 0, 1, 1⟩ "keys" =
      some ("spare keys", 1/2) ∧
    ¬((1 : ℚ)/2 > m.match_threshold) := by
  refine ⟨by decide, by decide⟩

/-- C5 (amended): `recognize(image, bbox, source_class)` returns the
remembered object of the same `source_class` with the highest confidence
**at or above** the configured match threshold (the code compares with
`>=`, not strictly; the earliest-enrolled candidate wins ties), and returns
`None` — never an error — when no remembered objects of the class exist,
when no candidate's confidence reaches the threshold, or when the query
image yields no usable features: for every positive threshold,
`recognize_object` coincides with the declarative `recognize_object_spec`,
and the candidate-free case returns `none`. -/
theorem C5_recognize_characterisation :
    ∀ (m : VisualMatcher.Matcher) (s : ObjectMemory.MemoryState)
      (image : VisualMatcher.Image) (bbox : Box) (yolo_class : String),
      0 < m.match_threshold →
      ObjectMemory.recognize_object m s image bbox yolo_class =
        ObjectMemory.recognize_object_spec m s image bbox yolo_class ∧
      (ObjectMemory.get_remembered_objects_by_class s.db yolo_class = [] →
        ObjectMemory.recognize_object m s image bbox yolo_class = none) := by
  intro m s image bbox yolo_class hth
  constructor
  · simp only [ObjectMemory.recognize_object, ObjectMemory.recognize_object_spec]
    rw [VisualMatcher.find_best_match_eq_spec _ _ _ hth]
  · intro h
    unfold ObjectMemory.recognize_object
    rw [h]
    rfl

/-- Witness for `C5_recognize_characterisation`: a deep-feature matcher with
threshold `0.5` and two enrolled "keys" objects with confidences `1` and
`0.5`; recognition returns the first with confidence `1`. -/
theorem C5_recognize_characterisation_witness :
    let m : VisualMatcher.Matcher :=
      ⟨1/2, true, fun _ _ => .deep [1], fun _ _ => 0, fun _ _ => 0, fun _ => 0⟩
    let s : ObjectMemory.MemoryState :=
      ⟨[⟨1, "house keys", "keys", .deep [1], 1⟩,
        ⟨2, "spare keys", "keys", .deep [1/2], 1⟩], ObjectMemory.emptyBuffer⟩
    (0 : ℚ) < m.match_threshold ∧
    ObjectMemory.recognize_object m s 0 ⟨0, 0, 1, 1⟩ "keys" =
      ObjectMemory.recognize_object_spec m s 0 ⟨0, 0, 1, 1⟩ "keys" ∧
    ObjectMemory.recognize_object m s 0 ⟨0, 0, 1, 1⟩ "keys" =
      some ("house keys", 1) :=
  ⟨by decide,
   (C5_recognize_characterisation _ _ _ _ _ (by decide)).1,
   by decide⟩

/-- C9: `finish_enrollment` fails — returning `False`, the
`InsufficientFeatures` outcome — when no buffered enrollment frame yielded
usable features, and the whole state, datastore included, is left exactly
unchanged: no `RememberedObject` row is committed and no partial state is
persisted. -/
theorem C9_insufficient_features_no_commit :
    ∀ (m : VisualMatcher.Matcher) (s : ObjectMemory.MemoryState) (nm : String),
      s.buffer.custom_name = some nm →
      (∀ p ∈ s.buffer.images.zip s.buffer.bboxes,
        ¬ VisualMatcher.frameUsable m p.1 p.2) →
      ObjectMemory.finish_enrollment m s = (false, s) := by
  intro m s nm hnm h
  simp only [ObjectMemory.finish_enrollment, hnm]
  by_cases hlen : s.buffer.images.length < 1
  · rw [if_pos hlen]
  · rw [if_neg hlen]
    rw [VisualMatcher.extract_multi_frame_unusable m _ _ h]
    rfl

/-- Witness for `C9_insufficient_features_no_commit`: an ORB-mode matcher
whose extractor finds no descriptors, one buffered frame; enrollment fails
and the state is untouched. -/
theorem C9_insufficient_features_no_commit_witness :
    let m : VisualMatcher.Matcher :=
      ⟨1/2, false, fun _ _ => .keypoint [] none [], fun _ _ => 0,
        fun _ _ => 0, fun _ => 0⟩
    let s : ObjectMemory.MemoryState :=
      ⟨[], ⟨[0], [⟨0, 0, 10, 10⟩], some "keys", some "house keys"⟩⟩
    s.buffer.custom_name = some "house keys" ∧
    (∀ p ∈ s.buffer.images.zip s.buffer.bboxes,
      ¬ VisualMatcher.frameUsable m p.1 p.2) ∧
    ObjectMemory.finish_enrollment m s = (false, s) :=
  ⟨by decide, by decide,
   C9_insufficient_features_no_commit _ _ "house keys" (by decide) (by decide)⟩

/-- C10 counterexample: with threshold `0`, two candidates whose
confidences are both `0` share the top confidence, which is at (equal to)
the threshold — yet `find_best_match` returns `None`, not the earliest
candidate, because a candidate only becomes the running best when its
confidence is strictly greater than the initial `best_confidence = 0.0`. -/
theorem C10_counterexample :
    let m : VisualMatcher.Matcher :=
      ⟨0, true, fun _ _ => .deep [1], fun _ _ => 0, fun _ _ => 0, fun _ => 0⟩
    let cands : List (ℕ × String × VisualMatcher.Features) :=
      [(1, "first keys", .deep [0]), (2, "second keys", .deep [0])]
    (VisualMatcher.match_features m (.deep [1]) (.deep [0])).1 = 0 ∧
    m.match_threshold ≤ 0 ∧
    VisualMatcher.find_best_match m (.deep [1]) cands = none := by
  refine ⟨by decide, by decide, by decide⟩

/-- C10 (amended): when the match threshold is positive and two or more
candidates produce the same top confidence `M` at or above the threshold,
the candidate appearing earliest in the candidate list (database insertion
order, i.e. first-enrolled) is returned — a later candidate replaces the
running best only when its confidence is strictly greater:
`find_best_match` returns exactly the first candidate scoring `M`. -/
theorem C10_first_of_equal_top_wins :
    ∀ (m : VisualMatcher.Matcher) (q : VisualMatcher.Features)
      (cands : List (ℕ × String × VisualMatcher.Features)) (M : ℚ),
      0 < m.match_threshold → m.match_threshold ≤ M →
      (∀ c ∈ VisualMatcher.scoredCandidates m q cands, c.2.2 ≤ M) →
      (∃ c ∈ VisualMatcher.scoredCandidates m q cands, c.2.2 = M) →
      VisualMatcher.find_best_match m q cands =
        (VisualMatcher.scoredCandidates m q cands).find?
          (fun c => decide (c.2.2 = M)) := by
  intro m q cands M hth hthM htop hex
  rw [VisualMatcher.find_best_match_eq_spec _ _ _ hth]
  unfold VisualMatcher.find_best_match_spec
  apply find_congr_on_mem
  intro c hc
  by_cases hcM : c.2.2 = M
  · have hR : decide (c.2.2 = M) = true := by simp [hcM]
    rw [hR]
    simp only [Bool.and_eq_true, decide_eq_true_eq, List.all_eq_true]
    refine ⟨hthM.trans (le_of_eq hcM.symm), ?_⟩
    intro d hd
    simpa using (htop d hd).trans (le_of_eq hcM.symm)
  · have hR : decide (c.2.2 = M) = false := by simp [hcM]
    rw [hR]
    obtain ⟨e, he, heM⟩ := hex
    have he2 : ¬(e.2.2 ≤ c.2.2) := fun hle =>
      hcM (le_antisymm (htop c hc) (heM ▸ hle))
    simp only [Bool.and_eq_false_iff, List.all_eq_false]
    right
    exact ⟨e, he, by simpa using he2⟩

/-- Witness for `C10_first_of_equal_top_wins`: two "keys" candidates both
scoring confidence `1` against the query; the first-enrolled one is
returned. -/
theorem C10_first_of_equal_top_wins_witness :
    let m : VisualMatcher.Matcher :=
      ⟨1/2, true, fun _ _ => .deep [1], fun _ _ => 0, fun _ _ => 0, fun _ => 0⟩
    let cands : List (ℕ × String × VisualMatcher.Features) :=
      [(1, "first keys", .deep [1]), (2, "second keys", .deep [1])]
    (0 : ℚ) < m.match_threshold ∧ m.match_threshold ≤ 1 ∧
    (∀ c ∈ VisualMatcher.scoredCandidates m (.deep [1]) cands, c.2.2 ≤ 1) ∧
    (∃ c ∈ VisualMatcher.scoredCandidates m (.deep [1]) cands, c.2.2 = 1) ∧
    VisualMatcher.find_best_match m (.deep [1]) cands =
      some (1, "first keys", 1) := by
  refine ⟨by decide, by decide, by decide, by decide, ?_⟩
  exact (C10_first_of_equal_top_wins _ _ _ 1 (by decide) (by decide)
    (by decide) (by decide)).trans (by decide)

namespace ItemTracker

theorem lookupPair_cons (e : (String × String) × TrackEntry) (st : TrackingState)
    (k : String × String) :
    lookupPair (e :: st) k = if e.1 = k then some e.2 else lookupPair st k := by
  unfold lookupPair
  rw [List.find?_cons]
  by_cases h : e.1 = k
  · rw [show (e.1 == k) = true from by simpa using h]
    rw [if_pos h]
    rfl
  · rw [show (e.1 == k) = false from by simpa using h]
    rw [if_neg h]

theorem lookup_setConfirmed (st : TrackingState) (k j : String × String) :
    lookupPair (setConfirmed st k) j =
      if j = k then (lookupPair st j).map (fun e => ⟨e.start_time, true⟩)
      else lookupPair st j := by
  induction st with
  | nil => by_cases h : j = k <;> simp [setConfirmed, lookupPair, h]
  | cons e st ih =>
      unfold setConfirmed
      unfold setConfirmed at ih
      rw [List.map_cons]
      by_cases hek : e.1 = k
      · have hhead : (if (e.1 == k) = true then
            (e.1, { e.2 with confirmed := true }) else e) =
            (e.1, { e.2 with confirmed := true }) := by simp [hek]
        rw [hhead, lookupPair_cons, lookupPair_cons]
        by_cases hj : e.1 = j
        · have hjk : j = k := hj ▸ hek
          rw [if_pos hj, if_pos hj, if_pos hjk]
          rfl
        · have hjk : ¬(j = k) := fun h => hj (hek.trans h.symm)
          rw [if_neg hj, if_neg hj, if_neg hjk, ih, if_neg hjk]
      · have hhead : (if (e.1 == k) = true then
            (e.1, { e.2 with confirmed := true }) else e) = e := by simp [hek]
        rw [hhead, lookupPair_cons, lookupPair_cons]
        by_cases hj : e.1 = j
        · have hjk : ¬(j = k) := fun h => hek (hj.trans h)
          rw [if_pos hj, if_pos hj, if_neg hjk]
        · rw [if_neg hj, if_neg hj, ih]

theorem lookup_append_entry (st : TrackingState) (k : String × String)
    (e : TrackEntry) (j : String × String) :
    lookupPair (st ++ [(k, e)]) j =
      match lookupPair st j with
      | some x => some x
      | none => if k = j then some e else none := by
  induction st with
  | nil =>
      show lookupPair ((k, e) :: []) j = _
      rw [lookupPair_cons]
      rfl
  | cons f st ih =>
      rw [List.cons_append, lookupPair_cons, lookupPair_cons]
      by_cases hf : f.1 = j
      · rw [if_pos hf, if_pos hf]
      · rw [if_neg hf, if_neg hf, ih]

theorem lookup_filter_not_mem (st : TrackingState)
    (act : List (String × String)) (k : String × String) (h : k ∉ act) :
    lookupPair (st.filter (fun e => e.1 ∈ act)) k = none := by
  induction st with
  | nil => rfl
  | cons e st ih =>
      rw [List.filter_cons]
      by_cases he : e.1 ∈ act
      · rw [if_pos (by simpa using he), lookupPair_cons,
          if_neg (show ¬(e.1 = k) from fun heq => h (heq ▸ he))]
        exact ih
      · rw [if_neg (by simpa using he)]
        exact ih

theorem insideKey_cons (p : Detection × Detection)
    (ps : List (Detection × Detection)) (k : String × String) :
    insideKey (p :: ps) k ↔
      (is_inside p.1.bbox p.2.bbox ∧ (p.1.class_name, p.2.class_name) = k) ∨
        insideKey ps k := by
  unfold insideKey
  constructor
  · rintro ⟨ic, hic, hin, hk⟩
    rcases List.mem_cons.mp hic with rfl | hic
    · exact Or.inl ⟨hin, hk⟩
    · exact Or.inr ⟨ic, hic, hin, hk⟩
  · rintro (⟨hin, hk⟩ | ⟨ic, hic, hin, hk⟩)
    · exact ⟨p, List.mem_cons_self _ _, hin, hk⟩
    · exact ⟨ic, List.mem_cons_of_mem _ hic, hin, hk⟩

theorem keysOf_append (l : List Confirmed) (c : Confirmed) :
    keysOf (l ++ [c]) = keysOf l ++ [(c.item, c.location)] := by
  unfold keysOf
  simp

theorem processPair_not_inside (now : ℚ) (acc : LoopAcc) (p : Detection × Detection)
    (h : ¬ is_inside p.1.bbox p.2.bbox) :
    processPair now acc p = acc := by
  unfold processPair
  rw [if_neg h]

theorem processPair_new (now : ℚ) (acc : LoopAcc) (p : Detection × Detection)
    (h : is_inside p.1.bbox p.2.bbox)
    (hl : lookupPair acc.state (p.1.class_name, p.2.class_name) = none) :
    processPair now acc p =
      { acc with
        active_pairs := acc.active_pairs ++ [(p.1.class_name, p.2.class_name)],
        state := acc.state ++ [((p.1.class_name, p.2.class_name), ⟨now, false⟩)] } := by
  simp [processPair, h, hl]

theorem processPair_stale (now : ℚ) (acc : LoopAcc) (p : Detection × Detection)
    (entry : TrackEntry) (h : is_inside p.1.bbox p.2.bbox)
    (hl : lookupPair acc.state (p.1.class_name, p.2.class_name) = some entry)
    (hcond : ¬(now - entry.start_time ≥ ITEM_TRACKING_TIMEOUT ∧
      entry.confirmed = false)) :
    processPair now acc p =
      { acc with
        active_pairs := acc.active_pairs ++ [(p.1.class_name, p.2.class_name)] } := by
  simp only [processPair, h, if_true, hl]
  rw [if_neg hcond]

theorem processPair_emit (now : ℚ) (acc : LoopAcc) (p : Detection × Detection)
    (entry : TrackEntry) (h : is_inside p.1.bbox p.2.bbox)
    (hl : lookupPair acc.state (p.1.class_name, p.2.class_name) = some entry)
    (hcond : now - entry.start_time ≥ ITEM_TRACKING_TIMEOUT ∧
      entry.confirmed = false) :
    processPair now acc p =
      { confirmed_locations := acc.confirmed_locations ++
          [⟨p.1.class_name, p.2.class_name, now⟩],
        db_writes := acc.db_writes ++ [(p.1.class_name, p.2.class_name)],
        active_pairs := acc.active_pairs ++ [(p.1.class_name, p.2.class_name)],
        state := setConfirmed acc.state (p.1.class_name, p.2.class_name) } := by
  simp only [processPair, h, if_true, hl]
  rw [if_pos hcond]

theorem mem_active_key_iff (act : List (String × String))
    (p : Detection × Detection) (rest : List (Detection × Detection))
    (k : String × String) (hin : is_inside p.1.bbox p.2.bbox) :
    (k ∈ act ++ [(p.1.class_name, p.2.class_name)] ∨ insideKey rest k) ↔
      (k ∈ act ∨ insideKey (p :: rest) k) := by
  rw [insideKey_cons]
  constructor
  · rintro (hm | hik)
    · rcases List.mem_append.mp hm with hm | hm
      · exact Or.inl hm
      · exact Or.inr (Or.inl ⟨hin, (List.mem_singleton.mp hm).symm⟩)
    · exact Or.inr (Or.inr hik)
  · rintro (hm | (⟨-, hk⟩ | hik))
    · exact Or.inl (List.mem_append.mpr (Or.inl hm))
    · exact Or.inl (List.mem_append.mpr (Or.inr (List.mem_singleton.mpr hk.symm)))
    · exact Or.inr hik

theorem foldl_processPair_spec (now : ℚ) :
    ∀ (ps : List (Detection × Detection)) (acc : LoopAcc),
      acc.db_writes = keysOf acc.confirmed_locations →
      (∀ c ∈ acc.confirmed_locations, c.timestamp = now) →
      (∀ k ∈ keysOf acc.confirmed_locations,
        ∃ s, lookupPair acc.state k = some ⟨s, true⟩) →
      (keysOf acc.confirmed_locations).Nodup →
      ((ps.foldl (processPair now) acc).db_writes =
          keysOf (ps.foldl (processPair now) acc).confirmed_locations ∧
       (∀ c ∈ (ps.foldl (processPair now) acc).confirmed_locations,
          c.timestamp = now) ∧
       (∀ k ∈ keysOf (ps.foldl (processPair now) acc).confirmed_locations,
          ∃ s, lookupPair (ps.foldl (processPair now) acc).state k =
            some ⟨s, true⟩) ∧
       (keysOf (ps.foldl (processPair now) acc).confirmed_locations).Nodup ∧
       (∀ k, k ∈ keysOf (ps.foldl (processPair now) acc).confirmed_locations ↔
          k ∈ keysOf acc.confirmed_locations ∨
            (insideKey ps k ∧ ∃ s, lookupPair acc.state k = some ⟨s, false⟩ ∧
              now - s ≥ ITEM_TRACKING_TIMEOUT)) ∧
       (∀ k, k ∈ (ps.foldl (processPair now) acc).active_pairs ↔
          k ∈ acc.active_pairs ∨ insideKey ps k)) := by
  intro ps
  induction ps with
  | nil =>
      intro acc h1 h2 h3 h4
      refine ⟨h1, h2, h3, h4, ?_, ?_⟩
      · intro k
        simp [insideKey]
      · intro k
        simp [insideKey]
  | cons p rest ih =>
      intro acc h1 h2 h3 h4
      rw [List.foldl_cons]
      by_cases hin : is_inside p.1.bbox p.2.bbox
      · cases hl : lookupPair acc.state (p.1.class_name, p.2.class_name) with
        | none =>
            rw [processPair_new now acc p hin hl]
            obtain ⟨g1, g2, g3, g4, g5, g6⟩ := ih
              { acc with
                active_pairs := acc.active_pairs ++
                  [(p.1.class_name, p.2.class_name)],
                state := acc.state ++
                  [((p.1.class_name, p.2.class_name), ⟨now, false⟩)] }
              h1 h2
              (by
                intro k hk
                obtain ⟨s, hs⟩ := h3 k hk
                refine ⟨s, ?_⟩
                show lookupPair (acc.state ++ _) k = _
                rw [lookup_append_entry, hs])
              h4
            refine ⟨g1, g2, g3, g4, ?_, ?_⟩
            · intro k
              rw [g5 k]
              refine or_congr Iff.rfl ?_
              by_cases hk : (p.1.class_name, p.2.class_name) = k
              · have hlk : lookupPair acc.state k = none := hk ▸ hl
                constructor
                · rintro ⟨hik, s, hs, hC⟩
                  rw [show lookupPair ({ acc with
                      active_pairs := acc.active_pairs ++
                        [(p.1.class_name, p.2.class_name)],
                      state := acc.state ++
                        [((p.1.class_name, p.2.class_name),
                          ⟨now, false⟩)] } : LoopAcc).state k =
                      lookupPair (acc.state ++
                        [((p.1.class_name, p.2.class_name), ⟨now, false⟩)]) k
                      from rfl, lookup_append_entry, hlk, if_pos hk] at hs
                  have hsn : now = s := congrArg TrackEntry.start_time
                    (Option.some.inj hs)
                  rw [← hsn] at hC
                  have : (0 : ℚ) ≥ ITEM_TRACKING_TIMEOUT := by
                    simpa using hC
                  rw [ITEM_TRACKING_TIMEOUT] at this
                  norm_num at this
                · rintro ⟨hik, s, hs, hC⟩
                  rw [hlk] at hs
                  exact absurd hs (by simp)
              · have hTrans : lookupPair (acc.state ++
                    [((p.1.class_name, p.2.class_name), ⟨now, false⟩)]) k =
                    lookupPair acc.state k := by
                  rw [lookup_append_entry]
                  cases hx : lookupPair acc.state k with
                  | some x => rfl
                  | none => rw [if_neg hk]
                rw [show lookupPair ({ acc with
                    active_pairs := acc.active_pairs ++
                      [(p.1.class_name, p.2.class_name)],
                    state := acc.state ++
                      [((p.1.class_name, p.2.class_name),
                        ⟨now, false⟩)] } : LoopAcc).state k =
                    lookupPair (acc.state ++
                      [((p.1.class_name, p.2.class_name), ⟨now, false⟩)]) k
                    from rfl, hTrans]
                apply and_congr_left
                intro _
                rw [insideKey_cons]
                simp [hin, hk]
            · intro k
              rw [g6 k]
              exact mem_active_key_iff _ p rest k hin
        | some entry =>
            by_cases hcond : now - entry.start_time ≥ ITEM_TRACKING_TIMEOUT ∧
              entry.confirmed = false
            · -- emission branch
              have hK0new : (p.1.class_name, p.2.class_name) ∉
                  keysOf acc.confirmed_locations := by
                intro hmem
                obtain ⟨s, hs⟩ := h3 _ hmem
                rw [hl] at hs
                have := Option.some.inj hs
                rw [this] at hcond
                exact absurd hcond.2 (by simp)
              rw [processPair_emit now acc p entry hin hl hcond]
              obtain ⟨g1, g2, g3, g4, g5, g6⟩ := ih
                { confirmed_locations := acc.confirmed_locations ++
                    [⟨p.1.class_name, p.2.class_name, now⟩],
                  db_writes := acc.db_writes ++
                    [(p.1.class_name, p.2.class_name)],
                  active_pairs := acc.active_pairs ++
                    [(p.1.class_name, p.2.class_name)],
                  state := setConfirmed acc.state
                    (p.1.class_name, p.2.class_name) }
                (by
                  show acc.db_writes ++ _ = keysOf (acc.confirmed_locations ++ _)
                  rw [keysOf_append, h1])
                (by
                  intro c hc
                  rcases List.mem_append.mp hc with hc | hc
                  · exact h2 c hc
                  · rw [List.mem_singleton.mp hc])
                (by
                  intro k hk
                  rw [show keysOf (acc.confirmed_locations ++
                      [⟨p.1.class_name, p.2.class_name, now⟩]) =
                      keysOf acc.confirmed_locations ++
                        [(p.1.class_name, p.2.class_name)]
                      from keysOf_append _ _] at hk
                  rcases List.mem_append.mp hk with hk | hk
                  · obtain ⟨s, hs⟩ := h3 k hk
                    refine ⟨s, ?_⟩
                    show lookupPair (setConfirmed acc.state _) k = _
                    rw [lookup_setConfirmed,
                      if_neg (show ¬(k = (p.1.class_name, p.2.class_name))
                        from fun he => hK0new (he ▸ hk)), hs]
                  · refine ⟨entry.start_time, ?_⟩
                    show lookupPair (setConfirmed acc.state _) k = _
                    rw [List.mem_singleton.mp hk, lookup_setConfirmed,
                      if_pos rfl, hl]
                    rfl)
                (by
                  rw [show keysOf (acc.confirmed_locations ++
                      [⟨p.1.class_name, p.2.class_name, now⟩]) =
                      keysOf acc.confirmed_locations ++
                        [(p.1.class_name, p.2.class_name)]
                      from keysOf_append _ _]
                  rw [List.nodup_append]
                  exact ⟨h4, List.nodup_singleton _, by
                    intro a ha hb
                    rw [List.mem_singleton.mp hb] at ha
                    exact hK0new ha⟩)
              refine ⟨g1, g2, g3, g4, ?_, ?_⟩
              · intro k
                rw [g5 k]
                by_cases hk : (p.1.class_name, p.2.class_name) = k
                · apply iff_of_true
                  · left
                    show k ∈ keysOf (acc.confirmed_locations ++ _)
                    rw [keysOf_append]
                    exact List.mem_append.mpr
                      (Or.inr (List.mem_singleton.mpr hk.symm))
                  · right
                    refine ⟨⟨p, List.mem_cons_self _ _, hin, hk⟩,
                      entry.start_time, ?_, ?_⟩
                    · rw [← hk, hl]
                      have : entry = ⟨entry.start_time, false⟩ := by
                        cases entry with
                        | mk s c => simpa using hcond.2
                      rw [← this]
                    · exact hcond.1
                · have hmem : k ∈ keysOf (acc.confirmed_locations ++
                      [⟨p.1.class_name, p.2.class_name, now⟩]) ↔
                      k ∈ keysOf acc.confirmed_locations := by
                    rw [keysOf_append]
                    constructor
                    · intro hm
                      rcases List.mem_append.mp hm with hm | hm
                      · exact hm
                      · exact absurd (List.mem_singleton.mp hm).symm hk
                    · exact fun hm => List.mem_append.mpr (Or.inl hm)
                  rw [hmem]
                  refine or_congr Iff.rfl ?_
                  have hTrans : lookupPair (setConfirmed acc.state
                      (p.1.class_name, p.2.class_name)) k =
                      lookupPair acc.state k := by
                    rw [lookup_setConfirmed,
                      if_neg (show ¬(k = (p.1.class_name, p.2.class_name))
                        from fun he => hk he.symm)]
                  rw [hTrans]
                  apply and_congr_left
                  intro _
                  rw [insideKey_cons]
                  simp [hin, hk]
              · intro k
                rw [g6 k]
                exact mem_active_key_iff _ p rest k hin
            · -- stale / already confirmed branch
              rw [processPair_stale now acc p entry hin hl hcond]
              obtain ⟨g1, g2, g3, g4, g5, g6⟩ := ih
                { acc with active_pairs := acc.active_pairs ++
                    [(p.1.class_name, p.2.class_name)] }
                h1 h2 h3 h4
              refine ⟨g1, g2, g3, g4, ?_, ?_⟩
              · intro k
                rw [g5 k]
                refine or_congr Iff.rfl ?_
                by_cases hk : (p.1.class_name, p.2.class_name) = k
                · have hlk : lookupPair acc.state k = some entry := hk ▸ hl
                  constructor
                  · rintro ⟨hik, s, hs, hC⟩
                    rw [show lookupPair ({ acc with
                        active_pairs := acc.active_pairs ++
                          [(p.1.class_name, p.2.class_name)] } : LoopAcc).state
                        k = lookupPair acc.state k from rfl, hlk] at hs
                    have := Option.some.inj hs
                    exact absurd ⟨by rw [this]; exact hC, by rw [this]⟩ hcond
                  · rintro ⟨hik, s, hs, hC⟩
                    rw [hlk] at hs
                    have := Option.some.inj hs
                    exact absurd ⟨by rw [this]; exact hC, by rw [this]⟩ hcond
                · rw [show lookupPair ({ acc with
                      active_pairs := acc.active_pairs ++
                        [(p.1.class_name, p.2.class_name)] } : LoopAcc).state
                      k = lookupPair acc.state k from rfl]
                  apply and_congr_left
                  intro _
                  rw [insideKey_cons]
                  simp [hin, hk]
              · intro k
                rw [g6 k]
                exact mem_active_key_iff _ p rest k hin
      · rw [processPair_not_inside now acc p hin]
        obtain ⟨g1, g2, g3, g4, g5, g6⟩ := ih acc h1 h2 h3 h4
        refine ⟨g1, g2, g3, g4, ?_, ?_⟩
        · intro k
          rw [g5 k]
          refine or_congr Iff.rfl ?_
          apply and_congr_left
          intro _
          rw [insideKey_cons]
          simp [hin]
        · intro k
          rw [g6 k]
          refine or_congr Iff.rfl ?_
          rw [insideKey_cons]
          simp [hin]

theorem pairActive_iff_insideKey (dets : List Detection) (k : String × String) :
    pairActive dets k ↔
      insideKey ((dets.filter (fun d => d.class_name ∈ item_classes)).flatMap
        (fun i => (dets.filter
          (fun d => d.class_name ∈ container_classes)).map
            (fun c => (i, c)))) k := by
  unfold pairActive insideKey
  constructor
  · rintro ⟨i, hi, c, hc, h1, h2, h3⟩
    refine ⟨(i, c), ?_, h3, ?_⟩
    · exact List.mem_flatMap.mpr ⟨i, hi, List.mem_map.mpr ⟨c, hc, rfl⟩⟩
    · rw [h1, h2]
  · rintro ⟨ic, hic, hin, hk⟩
    obtain ⟨i, hi, hmap⟩ := List.mem_flatMap.mp hic
    obtain ⟨c, hc, rfl⟩ := List.mem_map.mp hmap
    exact ⟨i, hi, c, hc, congrArg Prod.fst hk, congrArg Prod.snd hk, hin⟩

theorem update_tracking_spec (t : ℚ) (dets : List Detection)
    (st : TrackingState) :
    (update_tracking t dets st).2.1 =
        keysOf (update_tracking t dets st).1 ∧
    (∀ c ∈ (update_tracking t dets st).1, c.timestamp = t) ∧
    (keysOf (update_tracking t dets st).1).Nodup ∧
    (∀ k, k ∈ keysOf (update_tracking t dets st).1 ↔
      pairActive dets k ∧ ∃ s, lookupPair st k = some ⟨s, false⟩ ∧
        t - s ≥ ITEM_TRACKING_TIMEOUT) ∧
    (∀ k, ¬ pairActive dets k →
      lookupPair (update_tracking t dets st).2.2 k = none) := by
  obtain ⟨g1, g2, g3, g4, g5, g6⟩ :=
    foldl_processPair_spec t
      ((dets.filter (fun d => d.class_name ∈ item_classes)).flatMap
        (fun i => (dets.filter
          (fun d => d.class_name ∈ container_classes)).map
            (fun c => (i, c))))
      ⟨[], [], [], st⟩ rfl
      (fun c hc => absurd hc (List.not_mem_nil c))
      (fun k hk => absurd hk (List.not_mem_nil k))
      List.nodup_nil
  refine ⟨g1, g2, g4, ?_, ?_⟩
  · intro k
    have hbridge := pairActive_iff_insideKey dets k
    constructor
    · intro hk
      rcases (g5 k).mp hk with h | ⟨hik, s, hs, hC⟩
      · exact absurd h (List.not_mem_nil k)
      · exact ⟨hbridge.mpr hik, s, hs, hC⟩
    · rintro ⟨hact, s, hs, hC⟩
      exact (g5 k).mpr (Or.inr ⟨hbridge.mp hact, s, hs, hC⟩)
  · intro k hk
    refine lookup_filter_not_mem _ _ k ?_
    intro hmem
    rcases (g6 k).mp hmem with h | h
    · exact absurd h (List.not_mem_nil k)
    · exact hk ((pairActive_iff_insideKey dets k).mpr h)

end ItemTracker

/-- **C2**: `update_tracking` confirms and persists an (item, container) pair
exactly when the containment test holds this frame and the pair has been
tracked, unconfirmed, for at least `ITEM_TRACKING_TIMEOUT` seconds: the
confirmed events and datastore writes of one call coincide key-for-key, each
key appears at most once per call, and every event carries the current
timestamp; a pair whose containment test fails this frame is dropped from the
tracking state immediately (no grace period).  Concretely, with the timeout of
3.0s: keys inside a chair at times 0, 1, 2, 3, 3.5 yields exactly one
confirmed event, at time 3 (not earlier); and keys inside a chair at times
0, 1, 2, 2.9, missing at 3, then re-detected at 3.5, 4.5, 5.5, 6.4, 6.5
confirms only once, at 6.5 — a full timeout after re-detection. -/
theorem C2_tracking_confirmation :
    (∀ (t : ℚ) (dets : List Detection) (st : TrackingState)
        (k : String × String),
        k ∈ keysOf (update_tracking t dets st).1 ↔
          pairActive dets k ∧ ∃ s, lookupPair st k = some ⟨s, false⟩ ∧
            t - s ≥ ITEM_TRACKING_TIMEOUT) ∧
    (∀ (t : ℚ) (dets : List Detection) (st : TrackingState),
        (update_tracking t dets st).2.1 =
            keysOf (update_tracking t dets st).1 ∧
        (keysOf (update_tracking t dets st).1).Nodup ∧
        ∀ c ∈ (update_tracking t dets st).1, c.timestamp = t) ∧
    (∀ (t : ℚ) (dets : List Detection) (st : TrackingState)
        (k : String × String),
        ¬ pairActive dets k →
          lookupPair (update_tracking t dets st).2.2 k = none) ∧
    (runTracker
        [(0, [⟨"keys", ⟨10, 10, 20, 20⟩⟩, ⟨"chair", ⟨0, 0, 100, 100⟩⟩]),
         (1, [⟨"keys", ⟨10, 10, 20, 20⟩⟩, ⟨"chair", ⟨0, 0, 100, 100⟩⟩]),
         (2, [⟨"keys", ⟨10, 10, 20, 20⟩⟩, ⟨"chair", ⟨0, 0, 100, 100⟩⟩]),
         (3, [⟨"keys", ⟨10, 10, 20, 20⟩⟩, ⟨"chair", ⟨0, 0, 100, 100⟩⟩]),
         (7/2, [⟨"keys", ⟨10, 10, 20, 20⟩⟩, ⟨"chair", ⟨0, 0, 100, 100⟩⟩])]
        []).1 = [⟨"keys", "chair", 3⟩] ∧
    (runTracker
        [(0, [⟨"keys", ⟨10, 10, 20, 20⟩⟩, ⟨"chair", ⟨0, 0, 100, 100⟩⟩]),
         (1, [⟨"keys", ⟨10, 10, 20, 20⟩⟩, ⟨"chair", ⟨0, 0, 100, 100⟩⟩]),
         (2, [⟨"keys", ⟨10, 10, 20, 20⟩⟩, ⟨"chair", ⟨0, 0, 100, 100⟩⟩]),
         (29/10, [⟨"keys", ⟨10, 10, 20, 20⟩⟩, ⟨"chair", ⟨0, 0, 100, 100⟩⟩]),
         (3, []),
         (7/2, [⟨"keys", ⟨10, 10, 20, 20⟩⟩, ⟨"chair", ⟨0, 0, 100, 100⟩⟩]),
         (9/2, [⟨"keys", ⟨10, 10, 20, 20⟩⟩, ⟨"chair", ⟨0, 0, 100, 100⟩⟩]),
         (11/2, [⟨"keys", ⟨10, 10, 20, 20⟩⟩, ⟨"chair", ⟨0, 0, 100, 100⟩⟩]),
         (32/5, [⟨"keys", ⟨10, 10, 20, 20⟩⟩, ⟨"chair", ⟨0, 0, 100, 100⟩⟩]),
         (13/2, [⟨"keys", ⟨10, 10, 20, 20⟩⟩, ⟨"chair", ⟨0, 0, 100, 100⟩⟩])]
        []).1 = [⟨"keys", "chair", 13/2⟩] := by
  refine ⟨?_, ?_, ?_, by decide, by decide⟩
  · intro t dets st k
    exact (update_tracking_spec t dets st).2.2.2.1 k
  · intro t dets st
    obtain ⟨h1, h2, h3, -, -⟩ := update_tracking_spec t dets st
    exact ⟨h1, h3, h2⟩
  · intro t dets st k hk
    exact (update_tracking_spec t dets st).2.2.2.2 k hk

theorem C2_tracking_confirmation_witness :
    ¬ pairActive [] ("keys", "chair") ∧
    lookupPair (update_tracking 1 []
      [(("keys", "chair"), ⟨0, false⟩)]).2.2 ("keys", "chair") = none :=
  ⟨by decide, C2_tracking_confirmation.2.2.1 1 []
    [(("keys", "chair"), ⟨0, false⟩)] ("keys", "chair") (by decide)⟩

namespace NavigationEngine

theorem haversine_self (lat lon : ℝ) :
    _haversine_distance lat lon lat lon = 0 := by
  have h00 : radians (lat - lat) = 0 := by unfold radians; ring
  have h01 : radians (lon - lon) = 0 := by unfold radians; ring
  simp only [_haversine_distance, h00, h01]
  rw [show (0 : ℝ) / 2 = 0 from by ring, Real.sin_zero]
  norm_num [atan2, Real.sqrt_zero, Real.sqrt_one, Real.arctan_zero]

theorem haversine_equator (δ : ℝ) (h1 : 0 < δ) (h2 : δ < 180) :
    _haversine_distance 0 0 0 δ = 6371000 * (δ * Real.pi / 180) := by
  have hπ := Real.pi_pos
  have ha : Real.sin (radians ((0 : ℝ) - 0) / 2) ^ 2 +
      Real.cos (radians 0) * Real.cos (radians 0) *
        Real.sin (radians (δ - 0) / 2) ^ 2 =
      Real.sin (δ * Real.pi / 180 / 2) ^ 2 := by
    have hz : radians ((0 : ℝ) - 0) = 0 := by unfold radians; ring
    have h0 : radians (0 : ℝ) = 0 := by unfold radians; ring
    have hδ : radians (δ - 0) = δ * Real.pi / 180 := by unfold radians; ring
    rw [hz, h0, hδ]
    rw [show (0 : ℝ) / 2 = 0 from by ring, Real.sin_zero, Real.cos_zero]
    ring
  simp only [_haversine_distance]
  rw [ha]
  have ht0 : 0 < δ * Real.pi / 180 / 2 := by positivity
  have htlt : δ * Real.pi / 180 / 2 < Real.pi / 2 := by nlinarith
  have hsin : 0 ≤ Real.sin (δ * Real.pi / 180 / 2) :=
    Real.sin_nonneg_of_nonneg_of_le_pi (le_of_lt ht0) (by linarith)
  have hcos : 0 < Real.cos (δ * Real.pi / 180 / 2) :=
    Real.cos_pos_of_mem_Ioo ⟨by linarith, htlt⟩
  rw [Real.sqrt_sq hsin]
  rw [show 1 - Real.sin (δ * Real.pi / 180 / 2) ^ 2 =
      Real.cos (δ * Real.pi / 180 / 2) ^ 2 from (Real.cos_sq' _).symm]
  rw [Real.sqrt_sq (le_of_lt hcos)]
  unfold atan2
  rw [if_pos hcos]
  rw [show Real.sin (δ * Real.pi / 180 / 2) / Real.cos (δ * Real.pi / 180 / 2)
      = Real.tan (δ * Real.pi / 180 / 2)
      from (Real.tan_eq_sin_div_cos _).symm]
  rw [Real.arctan_tan (by linarith) htlt]
  ring

theorem update_inactive_eq (e : Engine) (gps : Option (ℝ × ℝ))
    (h : e.navigation_active = false) : update e gps = (.inactive, e) := by
  simp [update, h]

theorem update_arrived_eq (e : Engine) (route : Route) (pos : ℝ × ℝ)
    (hact : e.navigation_active = true) (hroute : e.active_route = some route)
    (hArr : _is_arrived e route pos) :
    update e (some pos) =
      (.arrived "You have arrived at your destination"
          (_calculate_distance_to_destination route pos),
        { e with navigation_active := false }) := by
  simp only [update, hact, hroute]
  rw [if_neg (by simp), if_pos hArr]

theorem update_offroute_eq (e : Engine) (route : Route) (pos : ℝ × ℝ)
    (hact : e.navigation_active = true) (hroute : e.active_route = some route)
    (hnarr : ¬ _is_arrived e route pos) (hoff : _is_off_route e route pos) :
    update e (some pos) =
      (.offRoute "You are off route. Recalculating..."
          (_calculate_deviation e route pos), e) := by
  simp only [update, hact, hroute]
  rw [if_neg (by simp), if_neg hnarr, if_pos hoff]

theorem update_navigating_eq (e : Engine) (route : Route) (pos : ℝ × ℝ)
    (instr : String)
    (hact : e.navigation_active = true) (hroute : e.active_route = some route)
    (hnarr : ¬ _is_arrived e route pos) (hnoff : ¬ _is_off_route e route pos)
    (hins : get_current_instruction e.maps = some instr) :
    update e (some pos) =
      (NavResult.navigating instr
          (_calculate_distance_to_waypoint e route pos)
          (e.current_step + 1) route.steps.length
          (_should_announce e
            (_calculate_distance_to_waypoint e route pos)).1,
        if _calculate_distance_to_waypoint e route pos < 10 then
          { e with
              last_announcement := (_should_announce e
                (_calculate_distance_to_waypoint e route pos)).2,
              maps := advance_step e.maps }
        else
          { e with last_announcement := (_should_announce e
              (_calculate_distance_to_waypoint e route pos)).2 }) := by
  simp only [update, hact, hroute, hins]
  rw [if_neg (by simp), if_neg hnarr, if_neg hnoff]

end NavigationEngine

open NavigationEngine

/-- **C3 counterexample**: with `arrival_distance = 0` and the GPS position
exactly on the destination, the distance to the destination equals
`arrival_distance` (so the claimed `≤` trigger holds), yet `update` does not
return the arrived status, because `_is_arrived` uses strict `<`. -/
theorem C3_counterexample :
    _calculate_distance_to_destination ⟨[⟨"Go", none, 0, 0⟩]⟩
        ((0 : ℝ), (0 : ℝ)) ≤
      (⟨50, 30, 0, some ⟨[⟨"Go", none, 0, 0⟩]⟩, 0, none, true,
        ⟨some ⟨[⟨"Go", none, 0, 0⟩]⟩, 0⟩⟩ : Engine).arrival_distance ∧
    (update (⟨50, 30, 0, some ⟨[⟨"Go", none, 0, 0⟩]⟩, 0, none, true,
        ⟨some ⟨[⟨"Go", none, 0, 0⟩]⟩, 0⟩⟩ : Engine)
      (some ((0 : ℝ), (0 : ℝ)))).1.isArrived = false := by
  have hd : _calculate_distance_to_destination (⟨[⟨"Go", none, 0, 0⟩]⟩ : Route)
      ((0 : ℝ), (0 : ℝ)) = 0 := by
    rw [show _calculate_distance_to_destination (⟨[⟨"Go", none, 0, 0⟩]⟩ : Route)
        ((0 : ℝ), (0 : ℝ)) = _haversine_distance 0 0 0 0 from rfl]
    exact haversine_self 0 0
  have hw : _calculate_distance_to_waypoint
      (⟨50, 30, 0, some ⟨[⟨"Go", none, 0, 0⟩]⟩, 0, none, true,
        ⟨some ⟨[⟨"Go", none, 0, 0⟩]⟩, 0⟩⟩ : Engine)
      (⟨[⟨"Go", none, 0, 0⟩]⟩ : Route) ((0 : ℝ), (0 : ℝ)) = 0 := by
    rw [show _calculate_distance_to_waypoint
        (⟨50, 30, 0, some ⟨[⟨"Go", none, 0, 0⟩]⟩, 0, none, true,
          ⟨some ⟨[⟨"Go", none, 0, 0⟩]⟩, 0⟩⟩ : Engine)
        (⟨[⟨"Go", none, 0, 0⟩]⟩ : Route) ((0 : ℝ), (0 : ℝ)) =
        _haversine_distance 0 0 0 0 from rfl]
    exact haversine_self 0 0
  refine ⟨by rw [hd], ?_⟩
  rw [update_navigating_eq
      (⟨50, 30, 0, some ⟨[⟨"Go", none, 0, 0⟩]⟩, 0, none, true,
        ⟨some ⟨[⟨"Go", none, 0, 0⟩]⟩, 0⟩⟩ : Engine)
      ⟨[⟨"Go", none, 0, 0⟩]⟩ ((0 : ℝ), (0 : ℝ)) "Go"
      rfl rfl
      (by
        unfold _is_arrived
        rw [hd]
        show ¬((0 : ℝ) < 0)
        norm_num)
      (by
        unfold _is_off_route _calculate_deviation
        rw [hw]
        show ¬((0 : ℝ) > 30)
        norm_num)
      rfl]
  rfl

/-- **C3** (amended: the arrival trigger is strict `<`, not `≤`): when
navigation is active with a loaded route and a GPS fix whose distance to the
final waypoint is strictly below `arrival_distance`, `update` returns the
arrived status with its one arrival message and clears only
`navigation_active`; afterwards (navigation inactive) every `update` call
returns the inactive status and leaves the engine state unchanged. -/
theorem C3_arrival_strict :
    (∀ (e : Engine) (route : Route) (pos : ℝ × ℝ),
        e.navigation_active = true → e.active_route = some route →
        _calculate_distance_to_destination route pos < e.arrival_distance →
        update e (some pos) =
          (.arrived "You have arrived at your destination"
              (_calculate_distance_to_destination route pos),
            { e with navigation_active := false })) ∧
    (∀ (e : Engine) (gps : Option (ℝ × ℝ)),
        e.navigation_active = false → update e gps = (.inactive, e)) := by
  constructor
  · intro e route pos hact hroute hlt
    exact update_arrived_eq e route pos hact hroute hlt
  · intro e gps h
    exact update_inactive_eq e gps h

theorem C3_arrival_strict_witness :
    update (⟨50, 30, 20, some ⟨[⟨"Go", none, 0, 0⟩]⟩, 0, none, true,
        ⟨some ⟨[⟨"Go", none, 0, 0⟩]⟩, 0⟩⟩ : Engine)
      (some ((0 : ℝ), (0 : ℝ))) =
      (.arrived "You have arrived at your destination"
          (_calculate_distance_to_destination ⟨[⟨"Go", none, 0, 0⟩]⟩
            ((0 : ℝ), (0 : ℝ))),
        { (⟨50, 30, 20, some ⟨[⟨"Go", none, 0, 0⟩]⟩, 0, none, true,
            ⟨some ⟨[⟨"Go", none, 0, 0⟩]⟩, 0⟩⟩ : Engine) with
          navigation_active := false }) :=
  C3_arrival_strict.1 _ ⟨[⟨"Go", none, 0, 0⟩]⟩ ((0 : ℝ), (0 : ℝ)) rfl rfl
    (by
      rw [show _calculate_distance_to_destination
          (⟨[⟨"Go", none, 0, 0⟩]⟩ : Route) ((0 : ℝ), (0 : ℝ)) =
          _haversine_distance 0 0 0 0 from rfl, haversine_self]
      show (0 : ℝ) < 20
      norm_num)

/-- **C4 counterexample**: with the default thresholds (announcement 50 m,
reroute 30 m, arrival 20 m) and a waypoint about 44.5 m away on the equator,
the claimed announcement conditions hold (distance ≤ announcement_distance
and no announcement yet for this step, not arrived), but because the
deviation — the same 44.5 m — exceeds `reroute_distance`, `update` returns
the off-route status before the announcement logic runs: no announcement is
made and `last_announcement` is not set.  Off-route reporting is not
advisory-only for announcements. -/
theorem C4_counterexample :
    _calculate_distance_to_waypoint
        (⟨50, 30, 20, some ⟨[⟨"Turn left", none, 0, 1/2500⟩]⟩, 0, none, true,
          ⟨some ⟨[⟨"Turn left", none, 0, 1/2500⟩]⟩, 0⟩⟩ : Engine)
        ⟨[⟨"Turn left", none, 0, 1/2500⟩]⟩ ((0 : ℝ), (0 : ℝ)) ≤
      (⟨50, 30, 20, some ⟨[⟨"Turn left", none, 0, 1/2500⟩]⟩, 0, none, true,
        ⟨some ⟨[⟨"Turn left", none, 0, 1/2500⟩]⟩, 0⟩⟩ :
          Engine).announcement_distance ∧
    (⟨50, 30, 20, some ⟨[⟨"Turn left", none, 0, 1/2500⟩]⟩, 0, none, true,
      ⟨some ⟨[⟨"Turn left", none, 0, 1/2500⟩]⟩, 0⟩⟩ :
        Engine).last_announcement ≠
      some (⟨50, 30, 20, some ⟨[⟨"Turn left", none, 0, 1/2500⟩]⟩, 0, none,
        true, ⟨some ⟨[⟨"Turn left", none, 0, 1/2500⟩]⟩, 0⟩⟩ :
          Engine).current_step ∧
    ¬ _is_arrived
        (⟨50, 30, 20, some ⟨[⟨"Turn left", none, 0, 1/2500⟩]⟩, 0, none, true,
          ⟨some ⟨[⟨"Turn left", none, 0, 1/2500⟩]⟩, 0⟩⟩ : Engine)
        ⟨[⟨"Turn left", none, 0, 1/2500⟩]⟩ ((0 : ℝ), (0 : ℝ)) ∧
    (update (⟨50, 30, 20, some ⟨[⟨"Turn left", none, 0, 1/2500⟩]⟩, 0, none,
        true, ⟨some ⟨[⟨"Turn left", none, 0, 1/2500⟩]⟩, 0⟩⟩ : Engine)
      (some ((0 : ℝ), (0 : ℝ)))).1.announces = false ∧
    (update (⟨50, 30, 20, some ⟨[⟨"Turn left", none, 0, 1/2500⟩]⟩, 0, none,
        true, ⟨some ⟨[⟨"Turn left", none, 0, 1/2500⟩]⟩, 0⟩⟩ : Engine)
      (some ((0 : ℝ), (0 : ℝ)))).1.isOffRoute = true ∧
    (update (⟨50, 30, 20, some ⟨[⟨"Turn left", none, 0, 1/2500⟩]⟩, 0, none,
        true, ⟨some ⟨[⟨"Turn left", none, 0, 1/2500⟩]⟩, 0⟩⟩ : Engine)
      (some ((0 : ℝ), (0 : ℝ)))).2 =
      (⟨50, 30, 20, some ⟨[⟨"Turn left", none, 0, 1/2500⟩]⟩, 0, none, true,
        ⟨some ⟨[⟨"Turn left", none, 0, 1/2500⟩]⟩, 0⟩⟩ : Engine) := by
  have hπl := Real.pi_gt_d6
  have hπu := Real.pi_lt_d2
  have hval : _calculate_distance_to_waypoint
      (⟨50, 30, 20, some ⟨[⟨"Turn left", none, 0, 1/2500⟩]⟩, 0, none, true,
        ⟨some ⟨[⟨"Turn left", none, 0, 1/2500⟩]⟩, 0⟩⟩ : Engine)
      (⟨[⟨"Turn left", none, 0, 1/2500⟩]⟩ : Route) ((0 : ℝ), (0 : ℝ)) =
      6371000 * ((1/2500) * Real.pi / 180) := by
    rw [show _calculate_distance_to_waypoint
        (⟨50, 30, 20, some ⟨[⟨"Turn left", none, 0, 1/2500⟩]⟩, 0, none, true,
          ⟨some ⟨[⟨"Turn left", none, 0, 1/2500⟩]⟩, 0⟩⟩ : Engine)
        (⟨[⟨"Turn left", none, 0, 1/2500⟩]⟩ : Route) ((0 : ℝ), (0 : ℝ)) =
        _haversine_distance 0 0 0 (1/2500) from rfl]
    exact haversine_equator (1/2500) (by norm_num) (by norm_num)
  have hdest : _calculate_distance_to_destination
      (⟨[⟨"Turn left", none, 0, 1/2500⟩]⟩ : Route) ((0 : ℝ), (0 : ℝ)) =
      6371000 * ((1/2500) * Real.pi / 180) := by
    rw [show _calculate_distance_to_destination
        (⟨[⟨"Turn left", none, 0, 1/2500⟩]⟩ : Route) ((0 : ℝ), (0 : ℝ)) =
        _haversine_distance 0 0 0 (1/2500) from rfl]
    exact haversine_equator (1/2500) (by norm_num) (by norm_num)
  have hgt30 : (30 : ℝ) < 6371000 * ((1/2500) * Real.pi / 180) := by nlinarith
  have hle50 : 6371000 * ((1/2500) * Real.pi / 180) ≤ 50 := by nlinarith
  have hge20 : (20 : ℝ) ≤ 6371000 * ((1/2500) * Real.pi / 180) := by nlinarith
  have hnarr : ¬ _is_arrived
      (⟨50, 30, 20, some ⟨[⟨"Turn left", none, 0, 1/2500⟩]⟩, 0, none, true,
        ⟨some ⟨[⟨"Turn left", none, 0, 1/2500⟩]⟩, 0⟩⟩ : Engine)
      (⟨[⟨"Turn left", none, 0, 1/2500⟩]⟩ : Route) ((0 : ℝ), (0 : ℝ)) := by
    unfold _is_arrived
    rw [hdest]
    exact not_lt.mpr hge20
  have hoff : _is_off_route
      (⟨50, 30, 20, some ⟨[⟨"Turn left", none, 0, 1/2500⟩]⟩, 0, none, true,
        ⟨some ⟨[⟨"Turn left", none, 0, 1/2500⟩]⟩, 0⟩⟩ : Engine)
      (⟨[⟨"Turn left", none, 0, 1/2500⟩]⟩ : Route) ((0 : ℝ), (0 : ℝ)) := by
    unfold _is_off_route _calculate_deviation
    rw [hval]
    exact hgt30
  have hupd := update_offroute_eq
    (⟨50, 30, 20, some ⟨[⟨"Turn left", none, 0, 1/2500⟩]⟩, 0, none, true,
      ⟨some ⟨[⟨"Turn left", none, 0, 1/2500⟩]⟩, 0⟩⟩ : Engine)
    (⟨[⟨"Turn left", none, 0, 1/2500⟩]⟩ : Route) ((0 : ℝ), (0 : ℝ))
    rfl rfl hnarr hoff
  refine ⟨by rw [hval]; exact hle50, by simp, hnarr, ?_, ?_, ?_⟩
  · rw [hupd]
    rfl
  · rw [hupd]
    rfl
  · rw [hupd]

/-- **C4** (amended: announcements are suppressed whenever the off-route
branch fires first): during active navigation with a GPS fix, when the
position is neither arrived nor off route, an instruction is available, the
distance to the current step's waypoint is at most `announcement_distance`
and no announcement has been made for the current step, `update` returns the
navigating status carrying the instruction and the waypoint distance with
`announce = true`, and records `last_announcement = current_step`. -/
theorem C4_announcement_gating :
    ∀ (e : Engine) (route : Route) (pos : ℝ × ℝ) (instr : String),
      e.navigation_active = true → e.active_route = some route →
      ¬ _is_arrived e route pos → ¬ _is_off_route e route pos →
      get_current_instruction e.maps = some instr →
      _calculate_distance_to_waypoint e route pos ≤ e.announcement_distance →
      e.last_announcement ≠ some e.current_step →
      (update e (some pos)).1 = NavResult.navigating instr
          (_calculate_distance_to_waypoint e route pos)
          (e.current_step + 1) route.steps.length true ∧
      (update e (some pos)).1.announces = true ∧
      (update e (some pos)).2.last_announcement = some e.current_step := by
  intro e route pos instr hact hroute hnarr hnoff hins hclose hnew
  have hsa : _should_announce e (_calculate_distance_to_waypoint e route pos)
      = (true, some e.current_step) := by
    unfold _should_announce
    rw [if_pos hclose, if_pos hnew]
  rw [update_navigating_eq e route pos instr hact hroute hnarr hnoff hins]
  refine ⟨?_, ?_, ?_⟩
  · rw [hsa]
  · rw [hsa]
    rfl
  · rw [hsa]
    by_cases hnear : _calculate_distance_to_waypoint e route pos < 10
    · rw [if_pos hnear]
    · rw [if_neg hnear]

theorem C4_announcement_gating_witness :
    (update (⟨50, 30, 20, some ⟨[⟨"Turn left", none, 0, 1/5000⟩]⟩, 0, none,
        true, ⟨some ⟨[⟨"Turn left", none, 0, 1/5000⟩]⟩, 0⟩⟩ : Engine)
      (some ((0 : ℝ), (0 : ℝ)))).1.announces = true ∧
    (update (⟨50, 30, 20, some ⟨[⟨"Turn left", none, 0, 1/5000⟩]⟩, 0, none,
        true, ⟨some ⟨[⟨"Turn left", none, 0, 1/5000⟩]⟩, 0⟩⟩ : Engine)
      (some ((0 : ℝ), (0 : ℝ)))).2.last_announcement = some 0 := by
  have hπl := Real.pi_gt_d6
  have hπu := Real.pi_lt_d2
  have hval : _calculate_distance_to_waypoint
      (⟨50, 30, 20, some ⟨[⟨"Turn left", none, 0, 1/5000⟩]⟩, 0, none, true,
        ⟨some ⟨[⟨"Turn left", none, 0, 1/5000⟩]⟩, 0⟩⟩ : Engine)
      (⟨[⟨"Turn left", none, 0, 1/5000⟩]⟩ : Route) ((0 : ℝ), (0 : ℝ)) =
      6371000 * ((1/5000) * Real.pi / 180) := by
    rw [show _calculate_distance_to_waypoint
        (⟨50, 30, 20, some ⟨[⟨"Turn left", none, 0, 1/5000⟩]⟩, 0, none, true,
          ⟨some ⟨[⟨"Turn left", none, 0, 1/5000⟩]⟩, 0⟩⟩ : Engine)
        (⟨[⟨"Turn left", none, 0, 1/5000⟩]⟩ : Route) ((0 : ℝ), (0 : ℝ)) =
        _haversine_distance 0 0 0 (1/5000) from rfl]
    exact haversine_equator (1/5000) (by norm_num) (by norm_num)
  have hdest : _calculate_distance_to_destination
      (⟨[⟨"Turn left", none, 0, 1/5000⟩]⟩ : Route) ((0 : ℝ), (0 : ℝ)) =
      6371000 * ((1/5000) * Real.pi / 180) := by
    rw [show _calculate_distance_to_destination
        (⟨[⟨"Turn left", none, 0, 1/5000⟩]⟩ : Route) ((0 : ℝ), (0 : ℝ)) =
        _haversine_distance 0 0 0 (1/5000) from rfl]
    exact haversine_equator (1/5000) (by norm_num) (by norm_num)
  have hge20 : (20 : ℝ) ≤ 6371000 * ((1/5000) * Real.pi / 180) := by nlinarith
  have hle30 : 6371000 * ((1/5000) * Real.pi / 180) ≤ 30 := by nlinarith
  have h := C4_announcement_gating
    (⟨50, 30, 20, some ⟨[⟨"Turn left", none, 0, 1/5000⟩]⟩, 0, none, true,
      ⟨some ⟨[⟨"Turn left", none, 0, 1/5000⟩]⟩, 0⟩⟩ : Engine)
    (⟨[⟨"Turn left", none, 0, 1/5000⟩]⟩ : Route) ((0 : ℝ), (0 : ℝ))
    "Turn left" rfl rfl
    (by
      unfold _is_arrived
      rw [hdest]
      exact not_lt.mpr hge20)
    (by
      unfold _is_off_route _calculate_deviation
      rw [hval]
      exact not_lt.mpr hle30)
    rfl
    (by rw [hval]; exact le_trans hle30 (by norm_num))
    (by simp)
  exact ⟨h.2.1, h.2.2⟩

end ClaimProofs
